import Mathlib

/-!
Kernel synchronization system calls and port rendezvous.

A shallow embedding of `core/hle/kernel/svc/svc_synchronization.cpp`, of the
`KPort` state machine declared in `core/hle/kernel/k_port.h`, and of the album
manager of `core/hle/service/caps/caps_manager.cpp`.

The system calls are translated statement by statement.  Every call they make
into a collaborator (handle table, guest memory, in-use registry, scheduler
lock, `KSynchronizationObject::Wait`, ...) is recorded, in program order, in the
`calls` log of the returned outcome, so that statements of the form "X happens
before Y" or "Y is never entered" are statements about that log.

Collaborators whose bodies are not part of the translated sources are either
passed in as parameters (`Wait`, the result of `Reset`, the constant
`ArgumentHandleCountMax`) or modelled from the specification; the latter carry
a doc comment starting with `Modelled from the spec:`.
-/

namespace Kernel

/-! ## Data model -/

/-- Identity of a kernel object (the address the C++ code holds as a pointer). -/
abbrev ObjId := Nat

/-- Result codes used by the translated system calls.  `Other` stands for every
result code that the translated sources do not name. -/
inductive Result where
  | ResultSuccess
  | ResultInvalidHandle
  | ResultOutOfRange
  | ResultTimedOut
  | ResultCancelled
  | ResultPortClosed
  | Other (code : Nat)
deriving DecidableEq, Repr

/-- Modelled from the spec: the `Handle` type (its declaration is not among the
translated sources).  Section 3 describes a handle as a guest-visible value
encoding a table index and a generation tag, and section 9 asks for the pair
representation; no field widths are given, so both components are natural
numbers and generation wrap-around is outside the model. -/
structure Handle where
  index : Nat
  generation : Nat
deriving DecidableEq, Repr

/-- Dynamic type of a kernel object, as far as the translated system calls
distinguish it (`GetObject<T>` checks it). -/
inductive ObjKind where
  | ReadableEvent
  | Process
  | Thread
  | ServerPort
  | ServerSession
  | NotWaitable
deriving DecidableEq, Repr

/-- Modelled from the spec: the capability check of
`GetObject<KSynchronizationObject>`, section 3 (events, threads, processes,
server ports and server sessions can be waited on). -/
def ObjKind.isSynchronizationObject : ObjKind → Bool
  | .NotWaitable => false
  | _ => true

/-- Modelled from the spec: the wait state of an emulated thread, section 9
(`Runnable → Waiting → {Runnable, Cancelled}`). -/
inductive ThreadWaitState where
  | Runnable
  | Waiting
  | Cancelled
deriving DecidableEq, Repr

/-- Modelled from the spec: one slot of the handle table (section 3: handle →
(kernel object reference, generation); at most one live object per slot). -/
structure Slot where
  generation : Nat
  object : Option ObjId
deriving DecidableEq, Repr

/-- The part of `Core::System` the translated system calls read or write:
the current process's handle table, the kernel objects it refers to, guest
memory holding handles, and the scheduler-visible state of the current core. -/
structure KernelState where
  /-- Handle table of `Kernel().CurrentProcess()`. -/
  handle_table : List Slot
  /-- Dynamic type of each object. -/
  kind : ObjId → ObjKind
  /-- Reference count of each object. -/
  ref_count : ObjId → Nat
  /-- Signaled flag of each synchronization object. -/
  signaled : ObjId → Bool
  /-- Wait state of each thread object. -/
  wait_state : ObjId → ThreadWaitState
  /-- Interrupt flag of each thread object. -/
  interrupt_flag : ObjId → Bool
  /-- Guest memory seen as an array of handles, indexed by byte address. -/
  memory : Nat → Handle
  /-- Hold count of the scheduler lock. -/
  sched_lock_count : Nat
  /-- Result of `GetCurrentCoreId`. -/
  current_core : Nat
  /-- Result of `GetCurrentThreadPointer`. -/
  current_thread : ObjId
  /-- Result of `cur_process->GetPinnedThread(core)`; `none` is `nullptr`. -/
  pinned_thread : Nat → Option ObjId

/-- One call made by a translated function into a collaborator. -/
inductive Call where
  | HandleTableRemove (h : Handle)
  | GetObjectReadableEvent (h : Handle)
  | GetObjectProcess (h : Handle)
  | GetObjectThread (h : Handle)
  | ReadableEventReset (o : ObjId)
  | ProcessReset (o : ObjId)
  | MemoryGetPointer (addr : Nat)
  | GetMultipleObjects (handles : List Handle)
  | RegisterInUseObject (o : ObjId)
  | UnregisterInUseObject (o : ObjId)
  | Close (o : ObjId)
  | Wait (objs : List ObjId) (timeout : Int)
  | WaitCancel (o : ObjId)
  | SchedulerLock
  | SchedulerUnlock
  | GetPinnedThread (core : Nat)
  | ClearInterruptFlag (o : ObjId)
  | UnpinCurrentThread (core : Nat)
deriving DecidableEq, Repr

/-- What a system call leaves behind: its result code, the kernel state after
it, and the collaborator calls it made, in order. -/
structure Outcome where
  result : Result
  state : KernelState
  calls : List Call

/-! ## Kernel objects and the handle table -/

/-- Modelled from the spec: `KAutoObject::Open`, section 3 ("any holder
increments the count"). -/
def KAutoObject.Open (o : ObjId) (s : KernelState) : KernelState :=
  { s with ref_count := fun x => if x = o then s.ref_count x + 1 else s.ref_count x }

/-- Modelled from the spec: `KAutoObject::Close`, section 3 ("releasing
decrements it"). -/
def KAutoObject.Close (o : ObjId) (s : KernelState) : KernelState :=
  { s with ref_count := fun x => if x = o then s.ref_count x - 1 else s.ref_count x }

/-- Modelled from the spec: generation-checked slot lookup of the handle table,
section 3 ("a handle value is valid only while its generation matches the table
slot's current generation"). -/
def KHandleTable.Lookup (t : List Slot) (h : Handle) : Option ObjId :=
  match t[h.index]? with
  | some slot => if slot.generation = h.generation then slot.object else none
  | none => none

/-- Modelled from the spec: `KHandleTable::GetObject<T>`, section 4.1
("validates generation, checks the stored object's dynamic capability matches
`T`; returns no object if either check fails").  The reference a
`KScopedAutoObject` holds on the object it found is given back when its block
ends and is not tracked. -/
def KHandleTable.GetObject (s : KernelState) (T : ObjKind → Bool) (h : Handle) : Option ObjId :=
  match KHandleTable.Lookup s.handle_table h with
  | some o => if T (s.kind o) then some o else none
  | none => none

/-- Index of the first free slot, counting from `i`. -/
def KHandleTable.firstFree : List Slot → Nat → Option Nat
  | [], _ => none
  | sl :: rest, i => if sl.object = none then some i else KHandleTable.firstFree rest (i + 1)

/-- Modelled from the spec: `KHandleTable::Add`, section 4.1 ("allocates a free
slot (or grows), stores a new reference, bumps the slot generation, returns the
composed handle"). -/
def KHandleTable.Add (s : KernelState) (o : ObjId) : Handle × KernelState :=
  match KHandleTable.firstFree s.handle_table 0 with
  | some i =>
    let g := (s.handle_table.getD i ⟨0, none⟩).generation + 1
    (⟨i, g⟩, KAutoObject.Open o { s with handle_table := s.handle_table.set i ⟨g, some o⟩ })
  | none =>
    (⟨s.handle_table.length, 1⟩,
      KAutoObject.Open o { s with handle_table := s.handle_table ++ [⟨1, some o⟩] })

/-- Modelled from the spec: `KHandleTable::Remove`, section 4.1 ("fails (returns
false) if the handle's generation does not match; otherwise releases the held
reference, frees the slot, returns true"). -/
def KHandleTable.Remove (s : KernelState) (h : Handle) : Bool × KernelState :=
  match KHandleTable.Lookup s.handle_table h with
  | some o =>
    (true, KAutoObject.Close o
      { s with handle_table := s.handle_table.set h.index ⟨h.generation, none⟩ })
  | none => (false, s)

/-- Releases the references acquired so far by an aborted batch lookup. -/
def KHandleTable.releaseAll : List ObjId → KernelState → KernelState
  | [], s => s
  | o :: rest, s => KHandleTable.releaseAll rest (KAutoObject.Close o s)

/-- Loop of `GetMultipleObjects`: `acc` holds the objects acquired so far, most
recent first. -/
def KHandleTable.GetMultipleObjects.loop (T : ObjKind → Bool) :
    List Handle → List ObjId → KernelState → Option (List ObjId) × KernelState
  | [], acc, s => (some acc.reverse, s)
  | h :: rest, acc, s =>
    match KHandleTable.GetObject s T h with
    | some o => KHandleTable.GetMultipleObjects.loop T rest (o :: acc) (KAutoObject.Open o s)
    | none => (none, KHandleTable.releaseAll acc s)

/-- Modelled from the spec: `KHandleTable::GetMultipleObjects<T>`, section 4.1
("resolves every handle in the input in order; aborts and releases any partial
acquisitions if one handle is invalid").  `none` is the C++ `false`. -/
def KHandleTable.GetMultipleObjects (s : KernelState) (T : ObjKind → Bool)
    (handles : List Handle) : Option (List ObjId) × KernelState :=
  KHandleTable.GetMultipleObjects.loop T handles [] s

/-! ## Collaborators taken as parameters -/

/-- What `KSynchronizationObject::Wait` hands back: its result code, the value
it stored through the `index` out-pointer (if it stored one), and the kernel
state when the calling thread resumes. -/
structure WaitReturn where
  result : Result
  index : Option Int
  state : KernelState

/-- Signature of `KSynchronizationObject::Wait(kernel, index, objects,
num_objects, timeout)`; its body is not among the translated sources. -/
abbrev WaitFn := KernelState → List ObjId → Int → WaitReturn

/-- Signature of the result code of `KReadableEvent::Reset` and of
`KProcess::Reset`; their bodies are not among the translated sources. -/
abbrev ResetResultFn := KernelState → ObjId → Result

/-- Modelled from the spec: the state change of `KReadableEvent::Reset` and
`KProcess::Reset`, section 4.2 ("clears the signaled flag on whichever
matched"). -/
def ClearSignaled (o : ObjId) (s : KernelState) : KernelState :=
  { s with signaled := fun x => if x = o then false else s.signaled x }

/-- Modelled from the spec: `KThread::WaitCancel`, section 4.2 ("if that thread
is blocked in `WaitSynchronization`, wakes it with the cancellation outcome;
otherwise is a harmless no-op"). -/
def KThread.WaitCancel (t : ObjId) (s : KernelState) : KernelState :=
  if s.wait_state t = ThreadWaitState.Waiting then
    { s with wait_state := fun x => if x = t then ThreadWaitState.Cancelled else s.wait_state x }
  else s

/-- What ends a suspended wait (spec section 4.2, step 4). -/
inductive WakeCause where
  | Signaled (i : Nat)
  | TimeoutElapsed
  | Cancelled
deriving DecidableEq, Repr

/-- Position of the first signaled object of `objs`, counting from `i`. -/
def firstSignaled (s : KernelState) : List ObjId → Nat → Option Nat
  | [], _ => none
  | o :: rest, i => if s.signaled o then some i else firstSignaled s rest (i + 1)

/-- Modelled from the spec: `KSynchronizationObject::Wait`, section 4.2 steps 4
and 6 and section 8.  An object that is already signaled satisfies the wait at
once, lowest index first; otherwise a zero timeout returns `Timeout`
immediately; otherwise the thread is suspended and `wake` says what ended the
suspension. -/
def KSynchronizationObject.Wait (wake : WakeCause) : WaitFn := fun s objs timeout =>
  match firstSignaled s objs 0 with
  | some i => ⟨Result.ResultSuccess, some (i : Int), s⟩
  | none =>
    if timeout = 0 then ⟨Result.ResultTimedOut, none, s⟩
    else
      match wake with
      | .Signaled i => ⟨Result.ResultSuccess, some (i : Int), s⟩
      | .TimeoutElapsed => ⟨Result.ResultTimedOut, none, s⟩
      | .Cancelled => ⟨Result.ResultCancelled, none, s⟩

/-! ## `svc_synchronization.cpp` -/

namespace Svc

/-- `CloseHandle`: remove the handle from the current process's handle table;
`R_UNLESS(Remove(handle), ResultInvalidHandle)`. -/
def CloseHandle (s : KernelState) (handle : Handle) : Outcome :=
  let r := KHandleTable.Remove s handle
  if r.1 then ⟨Result.ResultSuccess, r.2, [Call.HandleTableRemove handle]⟩
  else ⟨Result.ResultInvalidHandle, r.2, [Call.HandleTableRemove handle]⟩

/-- `CloseHandle32` forwards to `CloseHandle`. -/
def CloseHandle32 (s : KernelState) (handle : Handle) : Outcome :=
  CloseHandle s handle

/-- `ResetSignal`: try the handle as a readable event, then as a process, and
return the result of the matched object's `Reset`. -/
def ResetSignal (EventReset ProcessReset : ResetResultFn) (s : KernelState) (handle : Handle) :
    Outcome :=
  -- Try to reset as readable event.
  match KHandleTable.GetObject s (fun k => decide (k = ObjKind.ReadableEvent)) handle with
  | some readable_event =>
    ⟨EventReset s readable_event, ClearSignaled readable_event s,
      [Call.GetObjectReadableEvent handle, Call.ReadableEventReset readable_event]⟩
  | none =>
    -- Try to reset as process.
    match KHandleTable.GetObject s (fun k => decide (k = ObjKind.Process)) handle with
    | some process =>
      ⟨ProcessReset s process, ClearSignaled process s,
        [Call.GetObjectReadableEvent handle, Call.GetObjectProcess handle,
          Call.ProcessReset process]⟩
    | none =>
      ⟨Result.ResultInvalidHandle, s,
        [Call.GetObjectReadableEvent handle, Call.GetObjectProcess handle]⟩

/-- `ResetSignal32` forwards to `ResetSignal`. -/
def ResetSignal32 (EventReset ProcessReset : ResetResultFn) (s : KernelState) (handle : Handle) :
    Outcome :=
  ResetSignal EventReset ProcessReset s handle

/-- What `WaitSynchronization` leaves behind; `index` is the value of `*index`
after the call. -/
structure WaitOutcome where
  result : Result
  index : Int
  state : KernelState
  calls : List Call

/-- The handles `handles[0 .. n)` behind the pointer obtained for
`handles_address`; a `Handle` occupies four bytes. -/
def readHandles (s : KernelState) (handles_address : Nat) (n : Nat) : List Handle :=
  (List.range n).map (fun i => s.memory (handles_address + 4 * i))

/-- The `SCOPE_EXIT` loop `for (s32 i = 0; i < num_handles; ++i)` of
`WaitSynchronization`, with `remaining = num_handles - i`.  Reading `objs[i]`
at or beyond `objs.size()` has no defined behaviour and yields `none`. -/
def WaitSynchronization.scopeExit (objs : List ObjId) :
    Nat → Nat → KernelState → Option (KernelState × List Call)
  | 0, _, s => some (s, [])
  | remaining + 1, i, s =>
    match objs[i]? with
    | none => none
    | some o =>
      (WaitSynchronization.scopeExit objs remaining (i + 1) (KAutoObject.Close o s)).map
        (fun r => (r.1, Call.UnregisterInUseObject o :: Call.Close o :: r.2))

/-- `WaitSynchronization`.  The result is `none` only if the cleanup loop reads
`objs` out of bounds. -/
def WaitSynchronization (Wait : WaitFn) (ArgumentHandleCountMax : Int) (s : KernelState)
    (index : Int) (handles_address : Nat) (num_handles : Int) (nano_seconds : Int) :
    Option WaitOutcome :=
  -- Ensure number of handles is valid.
  if ¬ (0 ≤ num_handles ∧ num_handles ≤ ArgumentHandleCountMax) then
    some ⟨Result.ResultOutOfRange, index, s, []⟩
  else
    let n := num_handles.toNat
    let getPointer := [Call.MemoryGetPointer handles_address]
    let handles := readHandles s handles_address n
    -- Body shared by both branches after the objects are known: wait, then run SCOPE_EXIT.
    let finish := fun (objs : List ObjId) (s1 : KernelState) (calls : List Call) =>
      let w := Wait s1 objs nano_seconds
      (WaitSynchronization.scopeExit objs n 0 w.state).map (fun r =>
        (⟨w.result, w.index.getD index, r.1,
          calls ++ [Call.Wait objs nano_seconds] ++ r.2⟩ : WaitOutcome))
    -- Copy user handles.
    if 0 < num_handles then
      -- Convert the handles to objects.
      match KHandleTable.GetMultipleObjects s ObjKind.isSynchronizationObject handles with
      | (none, s1) =>
        some ⟨Result.ResultInvalidHandle, index, s1,
          getPointer ++ [Call.GetMultipleObjects handles]⟩
      | (some objs, s1) =>
        finish objs s1
          (getPointer ++ [Call.GetMultipleObjects handles] ++ objs.map Call.RegisterInUseObject)
    else
      finish [] s getPointer

/-- Reading of a 64-bit pattern as a signed 64-bit integer (two's complement). -/
def toS64 (bits : Nat) : Int :=
  if bits % 2 ^ 64 < 2 ^ 63 then ((bits % 2 ^ 64 : Nat) : Int)
  else ((bits % 2 ^ 64 : Nat) : Int) - 2 ^ 64

/-- `WaitSynchronization32`: `timeout_low`, `handles_address` and `timeout_high`
are `u32` values; the timeout is
`(static_cast<s64>(timeout_high) << 32) | static_cast<s64>(timeout_low)`. -/
def WaitSynchronization32 (Wait : WaitFn) (ArgumentHandleCountMax : Int) (s : KernelState)
    (timeout_low : Nat) (handles_address : Nat) (num_handles : Int) (timeout_high : Nat)
    (index : Int) : Option WaitOutcome :=
  let nano_seconds : Int := toS64 (((timeout_high <<< 32) % 2 ^ 64) ||| timeout_low)
  WaitSynchronization Wait ArgumentHandleCountMax s index handles_address num_handles nano_seconds

/-- `CancelSynchronization`: get the thread from its handle, cancel its wait. -/
def CancelSynchronization (s : KernelState) (handle : Handle) : Outcome :=
  match KHandleTable.GetObject s (fun k => decide (k = ObjKind.Thread)) handle with
  | none => ⟨Result.ResultInvalidHandle, s, [Call.GetObjectThread handle]⟩
  | some thread =>
    ⟨Result.ResultSuccess, KThread.WaitCancel thread s,
      [Call.GetObjectThread handle, Call.WaitCancel thread]⟩

/-- `CancelSynchronization32` forwards to `CancelSynchronization`. -/
def CancelSynchronization32 (s : KernelState) (handle : Handle) : Outcome :=
  CancelSynchronization s handle

/-- Modelled from the spec: the constructor of `KScopedSchedulerLock`, sections
3 and 5 (a reentrant lock with a hold count, taken as a scoped critical
section): it raises the hold count. -/
def KScopedSchedulerLock.acquire (s : KernelState) : KernelState :=
  { s with sched_lock_count := s.sched_lock_count + 1 }

/-- Modelled from the spec: the destructor of `KScopedSchedulerLock`, section 5
("automatically-released"): it gives back the hold taken by the constructor. -/
def KScopedSchedulerLock.release (s : KernelState) : KernelState :=
  { s with sched_lock_count := s.sched_lock_count - 1 }

/-- Modelled from the spec: `KThread::ClearInterruptFlag`, section 4.2 ("clear
its interrupt flag"). -/
def KThread.ClearInterruptFlag (t : ObjId) (s : KernelState) : KernelState :=
  { s with interrupt_flag := fun x => if x = t then false else s.interrupt_flag x }

/-- Modelled from the spec: `KProcess::UnpinCurrentThread(core_id)`, section 4.2
("unpin it"): the core has no pinned thread afterwards. -/
def KProcess.UnpinCurrentThread (core_id : Nat) (s : KernelState) : KernelState :=
  { s with pinned_thread := fun c => if c = core_id then none else s.pinned_thread c }

/-- What a `void` system call leaves behind. -/
structure VoidOutcome where
  state : KernelState
  calls : List Call

/-- `SynchronizePreemptionState`: under the scheduler lock, unpin the current
thread if it is the thread pinned to the current core. -/
def SynchronizePreemptionState (s : KernelState) : VoidOutcome :=
  -- Lock the scheduler.
  let s1 := KScopedSchedulerLock.acquire s
  let core_id := s1.current_core
  -- If the current thread is pinned, unpin it.
  if s1.pinned_thread core_id = some s1.current_thread then
    -- Clear the current thread's interrupt flag.
    let s2 := KThread.ClearInterruptFlag s1.current_thread s1
    -- Unpin the current thread.
    let s3 := KProcess.UnpinCurrentThread core_id s2
    ⟨KScopedSchedulerLock.release s3,
      [Call.SchedulerLock, Call.GetPinnedThread core_id,
        Call.ClearInterruptFlag s1.current_thread, Call.UnpinCurrentThread core_id,
        Call.SchedulerUnlock]⟩
  else
    ⟨KScopedSchedulerLock.release s1,
      [Call.SchedulerLock, Call.GetPinnedThread core_id, Call.SchedulerUnlock]⟩

/-- Checks a call log against the scheduler-lock discipline: starting with
hold count `depth`, every call other than taking or releasing the lock is made
while the count is positive, and the lock is never released below zero. -/
def underSchedulerLock : Nat → List Call → Bool
  | _, [] => true
  | depth, Call.SchedulerLock :: rest => underSchedulerLock (depth + 1) rest
  | depth, Call.SchedulerUnlock :: rest => decide (0 < depth) && underSchedulerLock (depth - 1) rest
  | depth, _ :: rest => decide (0 < depth) && underSchedulerLock depth rest

end Svc

/-! ## `k_port.h` -/

/-- Modelled from the spec: the server port of a port pair, section 3 and 4.3
(server sessions queue on the server port until accepted). -/
structure KServerPort where
  pending_sessions : List Nat
  name : String
deriving DecidableEq, Repr

/-- Modelled from the spec: the client port of a port pair, section 3 (maximum
pending sessions). -/
structure KClientPort where
  max_sessions : Int
  name : String
deriving DecidableEq, Repr

/-- `KPort::State`. -/
inductive KPort.State where
  | Invalid
  | Normal
  | ClientClosed
  | ServerClosed
deriving DecidableEq, Repr

/-- Numeric value of a `KPort::State` enumerator (`enum class State : u8`). -/
def KPort.State.toU8 : KPort.State → Nat
  | .Invalid => 0
  | .Normal => 1
  | .ClientClosed => 2
  | .ServerClosed => 3

/-- Data members of `KPort`; a fresh port has `state{State::Invalid}` and
`is_light{}`. -/
structure KPort where
  server : KServerPort := ⟨[], ""⟩
  client : KClientPort := ⟨0, ""⟩
  state : KPort.State := KPort.State.Invalid
  is_light : Bool := false
deriving DecidableEq, Repr

/-- `KPort::IsLight`. -/
def KPort.IsLight (p : KPort) : Bool := p.is_light

/-- Modelled from the spec: `KPort::Initialize`, section 4.3 ("sets capacity and
light/heavy IPC mode; transitions to `Normal`"). -/
def KPort.Initialize (p : KPort) (max_sessions_ : Int) (is_light_ : Bool) (name_ : String) :
    KPort :=
  { p with
    server := { p.server with name := name_ }
    client := ⟨max_sessions_, name_⟩
    is_light := is_light_
    state := KPort.State.Normal }

/-- Modelled from the spec: `KPort::OnClientClosed`, section 4.3
(`Normal --OnClientClosed--> ClientClosed`, idempotent-safe, terminal states
stay as they are). -/
def KPort.OnClientClosed (p : KPort) : KPort :=
  if p.state = KPort.State.Normal then { p with state := KPort.State.ClientClosed } else p

/-- Modelled from the spec: `KPort::OnServerClosed`, section 4.3
(`Normal --OnServerClosed--> ServerClosed`, idempotent-safe, terminal states
stay as they are). -/
def KPort.OnServerClosed (p : KPort) : KPort :=
  if p.state = KPort.State.Normal then { p with state := KPort.State.ServerClosed } else p

/-- Modelled from the spec: `KPort::IsServerClosed`, section 4.3 (a query of the
port state; the method is declared `const`). -/
def KPort.IsServerClosed (p : KPort) : Bool :=
  decide (p.state = KPort.State.ServerClosed)

/-- Modelled from the spec: `KPort::EnqueueSession`, section 4.3 ("appends the
session to the Server Port's pending queue; fails with a port closed condition
if `IsServerClosed()`"; "no further sessions may be enqueued once either
[terminal state] is reached"; no queue-depth failure).  Use before `Initialize`
is outside the contract of section 4.3 and is not told apart. -/
def KPort.EnqueueSession (p : KPort) (session : Nat) : Result × KPort :=
  if p.IsServerClosed ∨ p.state = KPort.State.ClientClosed then (Result.ResultPortClosed, p)
  else
    (Result.ResultSuccess,
      { p with server := { p.server with pending_sessions := p.server.pending_sessions ++ [session] } })

/-- Operations applied to a port after `Initialize` (which is called exactly
once, section 4.3). -/
inductive PortOp where
  | OnClientClosed
  | OnServerClosed
  | IsServerClosed
  | EnqueueSession (session : Nat)
deriving DecidableEq, Repr

/-- Runs one operation; the second component is the result code of an
`EnqueueSession`, if the operation was one. -/
def KPort.step (p : KPort) : PortOp → KPort × Option Result
  | .OnClientClosed => (p.OnClientClosed, none)
  | .OnServerClosed => (p.OnServerClosed, none)
  | .IsServerClosed => (p, none)
  | .EnqueueSession session => ((p.EnqueueSession session).2, some (p.EnqueueSession session).1)

/-- Runs a sequence of operations and collects the result codes of its
`EnqueueSession` calls, in order. -/
def KPort.run : KPort → List PortOp → KPort × List Result
  | p, [] => (p, [])
  | p, op :: ops =>
    let r := p.step op
    let rest := KPort.run r.1 ops
    (rest.1, (match r.2 with | some res => [res] | none => []) ++ rest.2)

/-! ## Auxiliary definitions used in the proofs -/

/-- The state `s` with its reference counts replaced by `g`. -/
def withRef (s : KernelState) (g : ObjId → Nat) : KernelState :=
  { s with ref_count := g }

/-- Reference counts after one `Open` of `o`. -/
def inc (o : ObjId) (g : ObjId → Nat) : ObjId → Nat :=
  fun x => if x = o then g x + 1 else g x

/-- Reference counts after one `Close` of `o`. -/
def dec (o : ObjId) (g : ObjId → Nat) : ObjId → Nat :=
  fun x => if x = o then g x - 1 else g x

/-- Reference counts after opening every object of the list, in order. -/
def incAll : List ObjId → (ObjId → Nat) → ObjId → Nat
  | [], g => g
  | o :: rest, g => incAll rest (inc o g)

/-- Reference counts after closing every object of the list, in order. -/
def decAll : List ObjId → (ObjId → Nat) → ObjId → Nat
  | [], g => g
  | o :: rest, g => decAll rest (dec o g)

/-- All-or-nothing resolution of a batch of handles, without any reference
counting: the objects the handles name, if every handle names one of
capability `T`. -/
def resolveAll (s : KernelState) (T : ObjKind → Bool) : List Handle → Option (List ObjId)
  | [] => some []
  | h :: rest =>
    match KHandleTable.GetObject s T h with
    | none => none
    | some o => (resolveAll s T rest).map (fun os => o :: os)

/-- The calls of the cleanup loop for the objects `objs`. -/
def cleanupCalls (objs : List ObjId) : List Call :=
  objs.flatMap (fun o => [Call.UnregisterInUseObject o, Call.Close o])

/-- A kernel state used to exercise the definitions: slot 0 holds readable
event 10, slot 1 process 11, slot 2 is free, slot 3 holds thread 12 and slot 4
an object 13 that cannot be waited on; guest address `0x1000` holds the handles
of slots 0, 1 and 4, in that order. -/
def exampleState : KernelState where
  handle_table := [⟨1, some 10⟩, ⟨1, some 11⟩, ⟨2, none⟩, ⟨1, some 12⟩, ⟨1, some 13⟩]
  kind := fun o =>
    if o = 10 then ObjKind.ReadableEvent
    else if o = 11 then ObjKind.Process
    else if o = 12 then ObjKind.Thread
    else ObjKind.NotWaitable
  ref_count := fun _ => 1
  signaled := fun o => decide (o = 11)
  wait_state := fun _ => ThreadWaitState.Runnable
  interrupt_flag := fun _ => true
  memory := fun a =>
    if a = 0x1000 then ⟨0, 1⟩
    else if a = 0x1004 then ⟨1, 1⟩
    else if a = 0x1008 then ⟨4, 1⟩
    else ⟨2, 1⟩
  sched_lock_count := 0
  current_core := 0
  current_thread := 12
  pinned_thread := fun c => if c = 0 then some 12 else none

/-- A `Wait` that always times out and leaves the kernel state alone. -/
def timeoutWait : WaitFn := fun s _ _ => ⟨Result.ResultTimedOut, none, s⟩

/-- An operation on the handle table of a process. -/
inductive TableOp where
  | Add (o : ObjId)
  | Remove (h : Handle)
deriving DecidableEq, Repr

/-- A kernel state together with the record of what its handle table has
handed out: every handle returned by `Add` and every handle a successful
`Remove` took back. -/
structure TableHistory where
  state : KernelState
  issued : List Handle
  removed : List Handle

/-- Applies one handle-table operation and records it. -/
def TableHistory.step (t : TableHistory) : TableOp → TableHistory
  | .Add o =>
    ⟨(KHandleTable.Add t.state o).2, (KHandleTable.Add t.state o).1 :: t.issued, t.removed⟩
  | .Remove h =>
    ⟨(KHandleTable.Remove t.state h).2, t.issued,
      if (KHandleTable.Remove t.state h).1 then h :: t.removed else t.removed⟩

/-- Applies a sequence of handle-table operations to a state, starting with an
empty record. -/
def runTable (s : KernelState) (ops : List TableOp) : TableHistory :=
  ops.foldl TableHistory.step ⟨s, [], []⟩

/-- Invariant tying a handle table to its record: issued handles never exceed
the generation of their slot, an occupied slot is named by an issued handle
that has not been removed, and only issued handles are removed. -/
def tableInv (tbl : List Slot) (issued removed : List Handle) : Prop :=
  (∀ h ∈ issued, ∃ slot, tbl[h.index]? = some slot ∧ h.generation ≤ slot.generation) ∧
  (∀ i slot o, tbl[i]? = some slot → slot.object = some o →
    (⟨i, slot.generation⟩ : Handle) ∈ issued ∧ (⟨i, slot.generation⟩ : Handle) ∉ removed) ∧
  (∀ h ∈ removed, h ∈ issued)

/-- The example state with an empty handle table. -/
def emptyTableState : KernelState := { exampleState with handle_table := [] }

/-- A `Reset` result that succeeds on a signaled object and reports the result
code 125 on an object that is not signaled. -/
def resetIfSignaled : ResetResultFn := fun s o =>
  if s.signaled o then Result.ResultSuccess else Result.Other 125

/-- A `Reset` result that always succeeds. -/
def resetAlways : ResetResultFn := fun _ _ => Result.ResultSuccess

/-- The example state with the current core's pinned thread being another
thread than the one running on it. -/
def otherPinnedState : KernelState :=
  { exampleState with pinned_thread := fun c => if c = 0 then some 99 else none }

/-- A freshly constructed port (`state{State::Invalid}`). -/
def freshPort : KPort := {}

end Kernel

/-! ## `caps_manager.cpp` -/

namespace Service.Capture

/-! ### Data model -/

/-- Result codes named in `caps_manager.cpp`. -/
inductive Result where
  | ResultSuccess
  | ResultInvalidStorage
  | ResultIsNotMounted
  | ResultFileNotFound
  | ResultUnknown
deriving DecidableEq, Repr

/-- `Result::IsError`. -/
def Result.IsError (r : Result) : Bool := decide (r ≠ Result.ResultSuccess)

/-- Constants the translated functions use and whose declarations are not among
the translated sources: the enumerators `AlbumStorage::Sd` and
`ContentType::Screenshot` (as raw values), `SdAlbumFileLimit`, the channel
count `STBI_rgb_alpha` of the image library, and the width in bits of the
`unique_id` counter of a date. -/
structure Constants where
  Sd : Nat
  Screenshot : Nat
  SdAlbumFileLimit : Nat
  STBI_rgb_alpha : Int
  unique_id_bits : Nat
deriving DecidableEq, Repr

/-- `AlbumFileDateTime`, with the fields `GetAlbumEntry` initialises. -/
structure AlbumFileDateTime where
  year : Nat
  month : Nat
  day : Nat
  hour : Nat
  minute : Nat
  second : Nat
  unique_id : Nat
deriving DecidableEq, Repr

/-- `AlbumFileId`, with the fields `GetAlbumEntry` initialises; `storage` and
`type` are the raw values of `AlbumStorage` and `ContentType`. -/
structure AlbumFileId where
  application_id : Nat
  date : AlbumFileDateTime
  storage : Nat
  type : Nat
  unknown : Nat
deriving DecidableEq, Repr

/-- `AlbumEntry`. -/
structure AlbumEntry where
  entry_size : Nat
  file_id : AlbumFileId
deriving DecidableEq, Repr

/-- `ApplicationAlbumEntry`, with the fields `GetAlbumFileList` initialises;
`hash{}` is zero. -/
structure ApplicationAlbumEntry where
  size : Nat
  hash : Nat
  datetime : AlbumFileDateTime
  storage : Nat
  content : Nat
  unknown : Nat
deriving DecidableEq, Repr

/-- `ApplicationAlbumFileEntry`; `unknown = {}` is zero. -/
structure ApplicationAlbumFileEntry where
  entry : ApplicationAlbumEntry
  datetime : AlbumFileDateTime
  unknown : Nat
deriving DecidableEq, Repr

/-- A `std::filesystem::path`. -/
abbrev Path := String

/-- The `std::map<AlbumFileId, std::filesystem::path>`, as its key/value pairs
in iteration order. -/
abbrev AlbumFiles := List (AlbumFileId × Path)

/-- Data members of `AlbumManager`. -/
structure AlbumManager where
  is_mounted : Bool
  album_files : AlbumFiles
deriving DecidableEq, Repr

/-- Signature of the comparison operators `>` and `<` of `AlbumFileDateTime`;
their definitions are not among the translated sources. -/
abbrev DateCompare := AlbumFileDateTime → AlbumFileDateTime → Bool

/-- Signature of `Common::FS::GetSize`. -/
abbrev GetSizeFn := Path → Nat

/-! ### `GetAlbumFileList` -/

/-- The `for` loop of the storage-facing `GetAlbumFileList`, over the files not
yet visited. -/
def GetAlbumFileList.loop (K : Constants) (GetSize : GetSizeFn) (storage : Nat) :
    AlbumFiles → List AlbumEntry → List AlbumEntry
  | [], out_entries => out_entries
  | (file_id, path) :: rest, out_entries =>
    if file_id.storage ≠ storage then
      GetAlbumFileList.loop K GetSize storage rest out_entries
    else if out_entries.length ≥ K.SdAlbumFileLimit then
      out_entries
    else
      GetAlbumFileList.loop K GetSize storage rest
        (out_entries ++ [⟨GetSize path, file_id⟩])

/-- `AlbumManager::GetAlbumFileList(std::vector<AlbumEntry>&, AlbumStorage,
u8)`; the second component is `out_entries` after the call. -/
def AlbumManager.GetAlbumFileList (K : Constants) (GetSize : GetSizeFn) (m : AlbumManager)
    (out_entries : List AlbumEntry) (storage : Nat) (_flags : Nat) :
    Result × List AlbumEntry :=
  if storage > K.Sd then (Result.ResultInvalidStorage, out_entries)
  else if ¬ m.is_mounted then (Result.ResultIsNotMounted, out_entries)
  else (Result.ResultSuccess, GetAlbumFileList.loop K GetSize storage m.album_files out_entries)

/-- The entry the application-facing `GetAlbumFileList` builds for a file. -/
def ApplicationAlbumFileEntry.ofFile (GetSize : GetSizeFn) (contex_type : Nat)
    (file : AlbumFileId × Path) : ApplicationAlbumFileEntry :=
  { entry :=
      { size := GetSize file.2
        hash := 0
        datetime := file.1.date
        storage := file.1.storage
        content := contex_type
        unknown := 1 }
    datetime := file.1.date
    unknown := 0 }

/-- The `for` loop of the application-facing `GetAlbumFileList`, over the files
not yet visited; `gt` and `lt` are the operators `>` and `<` on dates. -/
def GetAlbumFileListApplication.loop (K : Constants) (GetSize : GetSizeFn) (gt lt : DateCompare)
    (contex_type : Nat) (start_date end_date : AlbumFileDateTime) :
    AlbumFiles → List ApplicationAlbumFileEntry → List ApplicationAlbumFileEntry
  | [], out_entries => out_entries
  | (file_id, path) :: rest, out_entries =>
    if file_id.type ≠ contex_type then
      GetAlbumFileListApplication.loop K GetSize gt lt contex_type start_date end_date rest
        out_entries
    else if gt file_id.date start_date then
      GetAlbumFileListApplication.loop K GetSize gt lt contex_type start_date end_date rest
        out_entries
    else if lt file_id.date end_date then
      GetAlbumFileListApplication.loop K GetSize gt lt contex_type start_date end_date rest
        out_entries
    else if out_entries.length ≥ K.SdAlbumFileLimit then
      out_entries
    else
      GetAlbumFileListApplication.loop K GetSize gt lt contex_type start_date end_date rest
        (out_entries ++ [ApplicationAlbumFileEntry.ofFile GetSize contex_type (file_id, path)])

/-- `AlbumManager::GetAlbumFileList(std::vector<ApplicationAlbumFileEntry>&,
ContentType, AlbumFileDateTime, AlbumFileDateTime, u64)`; the second component
is `out_entries` after the call. -/
def AlbumManager.GetAlbumFileListApplication (K : Constants) (GetSize : GetSizeFn)
    (gt lt : DateCompare) (m : AlbumManager) (out_entries : List ApplicationAlbumFileEntry)
    (contex_type : Nat) (start_date end_date : AlbumFileDateTime) (_aruid : Nat) :
    Result × List ApplicationAlbumFileEntry :=
  if ¬ m.is_mounted then (Result.ResultIsNotMounted, out_entries)
  else
    (Result.ResultSuccess,
      GetAlbumFileListApplication.loop K GetSize gt lt contex_type start_date end_date
        m.album_files out_entries)

/-- The files the application-facing `GetAlbumFileList` does not skip. -/
def inDateRange (gt lt : DateCompare) (contex_type : Nat)
    (start_date end_date : AlbumFileDateTime) (file : AlbumFileId × Path) : Bool :=
  decide (file.1.type = contex_type) && !gt file.1.date start_date && !lt file.1.date end_date

/-- The files the storage-facing `GetAlbumFileList` does not skip. -/
def onStorage (storage : Nat) (file : AlbumFileId × Path) : Bool :=
  decide (file.1.storage = storage)

/-! ### Example data -/

/-- Constants used to exercise the definitions: a limit of two entries and a
two-bit `unique_id` keep the examples small. -/
def exampleConstants : Constants :=
  { Sd := 1, Screenshot := 0, SdAlbumFileLimit := 2, STBI_rgb_alpha := 4, unique_id_bits := 2 }

/-- Seconds-resolution position of a date on the calendar. -/
def chronoKey (d : AlbumFileDateTime) : Nat :=
  ((((d.year * 13 + d.month) * 32 + d.day) * 24 + d.hour) * 60 + d.minute) * 60 + d.second

/-- Chronological `>` on dates. -/
def chronoGt : DateCompare := fun a b => decide (chronoKey b < chronoKey a)

/-- Chronological `<` on dates. -/
def chronoLt : DateCompare := fun a b => decide (chronoKey a < chronoKey b)

/-- Chronological `≤` on dates. -/
def chronoLe : DateCompare := fun a b => decide (chronoKey a ≤ chronoKey b)

/-- A date on the given day of 2023, at noon. -/
def exampleDate (month day : Nat) : AlbumFileDateTime :=
  ⟨2023, month, day, 12, 0, 0, 0⟩

/-- A screenshot file id on the SD card for the given day of 2023. -/
def exampleFileId (month day : Nat) : AlbumFileId :=
  ⟨0x0100, exampleDate month day, 1, 0, 1⟩

/-- A mounted manager with four screenshots on the SD card, from March, May,
July and September 2023, and one file on the other storage. -/
def exampleManager : AlbumManager :=
  { is_mounted := true
    album_files :=
      [(exampleFileId 3 1, "a.png"), (exampleFileId 5 1, "b.png"),
        ({ exampleFileId 6 1 with storage := 0 }, "n.png"),
        (exampleFileId 7 1, "c.png"), (exampleFileId 9 1, "d.png")] }

/-- A file size oracle: the length of the path. -/
def exampleGetSize : GetSizeFn := fun path => path.length

/-! ### The map `album_files` -/

/-- `album_files.find(key)`: the path stored under `key`, if any. -/
def AlbumFiles.find : AlbumFiles → AlbumFileId → Option Path
  | [], _ => none
  | (k, v) :: rest, key => if k = key then some v else AlbumFiles.find rest key

/-- `album_files.contains(key)`. -/
def AlbumFiles.contains (files : AlbumFiles) (key : AlbumFileId) : Bool :=
  (files.find key).isSome

/-- Overwrites the path stored under a key that is present. -/
def AlbumFiles.assign (key : AlbumFileId) (path : Path) : AlbumFiles → AlbumFiles
  | [] => []
  | (k, v) :: rest =>
    if k = key then (k, path) :: rest else (k, v) :: AlbumFiles.assign key path rest

/-- Inserts a key that is absent at its place in the key order `keyLt` of the
map. -/
def AlbumFiles.insertNew (keyLt : AlbumFileId → AlbumFileId → Bool) (key : AlbumFileId)
    (path : Path) : AlbumFiles → AlbumFiles
  | [] => [(key, path)]
  | (k, v) :: rest =>
    if keyLt key k then (key, path) :: (k, v) :: rest
    else (k, v) :: AlbumFiles.insertNew keyLt key path rest

/-- `album_files[key] = path`: overwrite the mapping of `key` if there is one,
otherwise add one. -/
def AlbumFiles.set (keyLt : AlbumFileId → AlbumFileId → Bool) (files : AlbumFiles)
    (key : AlbumFileId) (path : Path) : AlbumFiles :=
  if files.contains key then AlbumFiles.assign key path files
  else AlbumFiles.insertNew keyLt key path files

/-! ### `GetFile`, `LoadImage` and its callers -/

/-- `AlbumManager::GetFile`; the second component is `out_path` after the
call. -/
def AlbumManager.GetFile (m : AlbumManager) (out_path : Path) (file_id : AlbumFileId) :
    Result × Path :=
  match m.album_files.find file_id with
  | none => (Result.ResultFileNotFound, out_path)
  | some path => (Result.ResultSuccess, path)

/-- `LoadAlbumScreenShotImageOutput`, with the fields its callers set. -/
structure LoadAlbumScreenShotImageOutput where
  width : Int
  height : Int
deriving DecidableEq, Repr

/-- `ScreenShotDecoderFlag`, as far as `LoadImage` tells its values apart. -/
inductive ScreenShotDecoderFlag where
  | EnableFancyUpsampling
  | EnableBlockSmoothing
  | Other
deriving DecidableEq, Repr

/-- The resize filters `LoadImage` chooses between. -/
inductive ResizeFilter where
  | STBIR_FILTER_DEFAULT
  | STBIR_FILTER_TRIANGLE
  | STBIR_FILTER_BOX
deriving DecidableEq, Repr

/-- What reading and decoding an image file yields: a short read, a file the
decoder rejects, or an image that can be resized to a width, height and filter
into a run of bytes. -/
inductive FileLoad where
  | ShortRead
  | NotAnImage
  | Image (resize : Int → Int → ResizeFilter → List Nat)

/-- Signature of the file system and image library as `LoadImage` uses them. -/
abbrev FileLoadFn := Path → FileLoad

/-- The statement at which `LoadImage` returns. -/
inductive LoadImageExit where
  | SizeMismatch
  | ReadFailed
  | DecodeFailed
  | Done
deriving DecidableEq, Repr

/-- The value of an `int` expression: `none` when the exact value does not fit
32-bit signed `int`, where the C++ expression has no defined value. -/
def checkedInt (x : Int) : Option Int :=
  if -(2 : Int) ^ 31 ≤ x ∧ x < (2 : Int) ^ 31 then some x else none

/-- `static_cast<int>` of a wider signed value. -/
def castToInt (x : Int) : Int :=
  if x % (2 : Int) ^ 32 < (2 : Int) ^ 31 then x % (2 : Int) ^ 32
  else x % (2 : Int) ^ 32 - (2 : Int) ^ 32

/-- `static_cast<std::size_t>` of an `int`. -/
def castToSize (x : Int) : Nat := (x % (2 : Int) ^ 64).toNat

/-- `std::vector<u8>::resize(n)`: cut to `n` bytes or pad with zero bytes. -/
def resize (v : List Nat) (n : Nat) : List Nat :=
  v.take n ++ List.replicate (n - v.length) 0

/-- Writing `data` through `out_image.data()`: the span keeps its size. -/
def writeInto (out_image : List Nat) (data : List Nat) : List Nat :=
  (data ++ out_image.drop data.length).take out_image.length

/-- What `LoadImage` leaves behind. -/
structure LoadImageOutcome where
  result : Result
  out_image : List Nat
  exit : LoadImageExit

/-- `AlbumManager::LoadImage`.  The result is `none` only if `width * height *
STBI_rgb_alpha` overflows `int`. -/
def AlbumManager.LoadImage (K : Constants) (load : FileLoadFn) (out_image : List Nat)
    (path : Path) (width height : Int) (flag : ScreenShotDecoderFlag) :
    Option LoadImageOutcome :=
  match checkedInt (width * height) with
  | none => none
  | some wh =>
    match checkedInt (wh * K.STBI_rgb_alpha) with
    | none => none
    | some size =>
      if out_image.length ≠ castToSize size then
        some ⟨Result.ResultUnknown, out_image, LoadImageExit.SizeMismatch⟩
      else
        match load path with
        | .ShortRead => some ⟨Result.ResultUnknown, out_image, LoadImageExit.ReadFailed⟩
        | .NotAnImage => some ⟨Result.ResultUnknown, out_image, LoadImageExit.DecodeFailed⟩
        | .Image resized =>
          let filter_flag :=
            match flag with
            | .EnableFancyUpsampling => ResizeFilter.STBIR_FILTER_TRIANGLE
            | .EnableBlockSmoothing => ResizeFilter.STBIR_FILTER_BOX
            | .Other => ResizeFilter.STBIR_FILTER_DEFAULT
          some ⟨Result.ResultSuccess, writeInto out_image (resized width height filter_flag),
            LoadImageExit.Done⟩

/-- What `LoadAlbumScreenShotImage` and `LoadAlbumScreenShotThumbnail` leave
behind; `exit` is where `LoadImage` returned, if it was called. -/
structure LoadOutcome where
  result : Result
  out_image_output : LoadAlbumScreenShotImageOutput
  out_image : List Nat
  exit : Option LoadImageExit

/-- `AlbumManager::LoadAlbumScreenShotImage`.  The result is `none` only if
`LoadImage` overflows `int`. -/
def AlbumManager.LoadAlbumScreenShotImage (K : Constants) (load : FileLoadFn) (m : AlbumManager)
    (out_image_output : LoadAlbumScreenShotImageOutput) (out_image : List Nat)
    (file_id : AlbumFileId) (flags : ScreenShotDecoderFlag) : Option LoadOutcome :=
  if file_id.storage > K.Sd then
    some ⟨Result.ResultInvalidStorage, out_image_output, out_image, none⟩
  else if ¬ m.is_mounted then
    some ⟨Result.ResultIsNotMounted, out_image_output, out_image, none⟩
  else
    let output : LoadAlbumScreenShotImageOutput := { width := 1280, height := 720 }
    let found := m.GetFile "" file_id
    if found.1.IsError then some ⟨found.1, output, out_image, none⟩
    else
      let resized := resize out_image (output.height * output.width * K.STBI_rgb_alpha).toNat
      (AlbumManager.LoadImage K load resized found.2 (castToInt output.width)
          (castToInt output.height) flags).map
        (fun r => ⟨r.result, output, r.out_image, some r.exit⟩)

/-- `AlbumManager::LoadAlbumScreenShotThumbnail`.  The result is `none` only if
`LoadImage` overflows `int`. -/
def AlbumManager.LoadAlbumScreenShotThumbnail (K : Constants) (load : FileLoadFn)
    (m : AlbumManager) (out_image_output : LoadAlbumScreenShotImageOutput)
    (out_image : List Nat) (file_id : AlbumFileId) (flags : ScreenShotDecoderFlag) :
    Option LoadOutcome :=
  if file_id.storage > K.Sd then
    some ⟨Result.ResultInvalidStorage, out_image_output, out_image, none⟩
  else if ¬ m.is_mounted then
    some ⟨Result.ResultIsNotMounted, out_image_output, out_image, none⟩
  else
    let output : LoadAlbumScreenShotImageOutput := { width := 320, height := 180 }
    let found := m.GetFile "" file_id
    if found.1.IsError then some ⟨found.1, output, out_image, none⟩
    else
      let resized := resize out_image (output.height * output.width * K.STBI_rgb_alpha).toNat
      (AlbumManager.LoadImage K load resized found.2 (castToInt output.width)
          (castToInt output.height) flags).map
        (fun r => ⟨r.result, output, r.out_image, some r.exit⟩)

/-- An image loader that decodes every file to a single byte. -/
def exampleLoad : FileLoadFn := fun _ => FileLoad.Image (fun _ _ _ => [255])

/-! ### `GetAlbumEntry` and `FindScreenshots` -/

/-- The numbers `GetAlbumEntry` reads out of a file name with `std::stoll` and
`std::stoi`. -/
structure ParsedName where
  application : Int
  year : Int
  month : Int
  day : Int
  hour : Int
  minute : Int
  second : Int
deriving DecidableEq, Repr

/-- Signature of the file-name parsing of `GetAlbumEntry` (`std::getline`,
`std::stoll`, `std::stoi`); `none` stands for a thrown exception. -/
abbrev ParseFn := Path → Option ParsedName

/-- `AlbumManager::GetAlbumEntry`; the second component is `out_entry` after
the call. -/
def AlbumManager.GetAlbumEntry (K : Constants) (parse : ParseFn) (out_entry : AlbumEntry)
    (path : Path) : Result × AlbumEntry :=
  match parse path with
  | none => (Result.ResultUnknown, out_entry)
  | some p =>
    (Result.ResultSuccess,
      { entry_size := 1
        file_id :=
          { application_id := (p.application % (2 : Int) ^ 64).toNat
            date :=
              { year := (p.year % (2 : Int) ^ 16).toNat
                month := (p.month % (2 : Int) ^ 8).toNat
                day := (p.day % (2 : Int) ^ 8).toNat
                hour := (p.hour % (2 : Int) ^ 8).toNat
                minute := (p.minute % (2 : Int) ^ 8).toNat
                second := (p.second % (2 : Int) ^ 8).toNat
                unique_id := 0 }
            storage := K.Sd
            type := K.Screenshot
            unknown := 1 } })

/-- The file id with its `date.unique_id` replaced. -/
def AlbumFileId.withUniqueId (file_id : AlbumFileId) (unique_id : Nat) : AlbumFileId :=
  { file_id with date := { file_id.date with unique_id := unique_id } }

/-- The loop `while (album_files.contains(entry.file_id)) { if
(++entry.file_id.date.unique_id == 0) break; }` of `FindScreenshots`, where the
counter has `unique_id_bits` bits.  Every evaluation of the loop condition
uses one unit of fuel; `none` means the fuel ran out before the loop ended. -/
def FindScreenshots.uniqueLoop (K : Constants) (album_files : AlbumFiles) :
    Nat → AlbumFileId → Option AlbumFileId
  | 0, _ => none
  | fuel + 1, file_id =>
    if album_files.contains file_id then
      let next := file_id.withUniqueId ((file_id.date.unique_id + 1) % 2 ^ K.unique_id_bits)
      if next.date.unique_id = 0 then some next
      else FindScreenshots.uniqueLoop K album_files fuel next
    else some file_id

/-- A default-constructed `AlbumEntry`. -/
def AlbumEntry.zero : AlbumEntry := ⟨0, ⟨0, ⟨0, 0, 0, 0, 0, 0, 0⟩, 0, 0, 0⟩⟩

/-- The callback `FindScreenshots` runs for one directory entry; the result is
`album_files` after it, or `none` if the fuel ran out in the loop. -/
def FindScreenshots.visit (K : Constants) (parse : ParseFn)
    (keyLt : AlbumFileId → AlbumFileId → Bool) (fuel : Nat) (album_files : AlbumFiles)
    (full_path : Path) : Option AlbumFiles :=
  let r := AlbumManager.GetAlbumEntry K parse AlbumEntry.zero full_path
  if r.1.IsError then some album_files
  else
    (FindScreenshots.uniqueLoop K album_files fuel r.2.file_id).map
      (fun file_id => album_files.set keyLt file_id full_path)

/-- `AlbumManager::FindScreenshots` over the files `dir` of the screenshots
directory. -/
def AlbumManager.FindScreenshots (K : Constants) (parse : ParseFn)
    (keyLt : AlbumFileId → AlbumFileId → Bool) (fuel : Nat) (dir : List Path)
    (_m : AlbumManager) : Option AlbumManager :=
  (dir.foldlM (fun files full_path => FindScreenshots.visit K parse keyLt fuel files full_path)
    ([] : AlbumFiles)).map (fun files => ⟨true, files⟩)

/-- A parser that reads every file name as the same moment of 2023. -/
def exampleParse : ParseFn := fun _ => some ⟨0x0100, 2023, 5, 1, 12, 0, 0⟩

/-- Key order used in the examples: by `unique_id`. -/
def exampleKeyLt : AlbumFileId → AlbumFileId → Bool :=
  fun a b => decide (a.date.unique_id < b.date.unique_id)

/-- Files holding the first `n` values of `unique_id` for the id `exampleParse`
yields. -/
def exampleTaken (n : Nat) : AlbumFiles :=
  (List.range n).map (fun u => ((exampleFileId 5 1).withUniqueId u, "old.png"))

end Service.Capture

/-! ## Lemmas on reference counting and batch resolution -/

namespace Kernel

theorem withRef_self (s : KernelState) : withRef s s.ref_count = s := rfl

theorem Open_withRef (o : ObjId) (s : KernelState) (g : ObjId → Nat) :
    KAutoObject.Open o (withRef s g) = withRef s (inc o g) := rfl

theorem Close_withRef (o : ObjId) (s : KernelState) (g : ObjId → Nat) :
    KAutoObject.Close o (withRef s g) = withRef s (dec o g) := rfl

theorem GetObject_withRef (s : KernelState) (g : ObjId → Nat) (T : ObjKind → Bool) (h : Handle) :
    KHandleTable.GetObject (withRef s g) T h = KHandleTable.GetObject s T h := rfl

theorem dec_inc (o : ObjId) (g : ObjId → Nat) : dec o (inc o g) = g := by
  funext x
  by_cases hx : x = o <;> simp [dec, inc, hx]

theorem incAll_apply (os : List ObjId) (g : ObjId → Nat) (x : ObjId) :
    incAll os g x = g x + os.count x := by
  induction os generalizing g with
  | nil => simp [incAll]
  | cons o rest ih =>
    rw [incAll, ih, List.count_cons]
    by_cases hx : x = o
    · subst hx; simp [inc]; omega
    · have hne : ¬ o = x := fun h => hx h.symm
      simp [inc, hx, hne]

theorem decAll_apply (os : List ObjId) (g : ObjId → Nat) (x : ObjId) :
    decAll os g x = g x - os.count x := by
  induction os generalizing g with
  | nil => simp [decAll]
  | cons o rest ih =>
    rw [decAll, ih, List.count_cons]
    by_cases hx : x = o
    · subst hx; simp [dec]; omega
    · have hne : ¬ o = x := fun h => hx h.symm
      simp [dec, hx, hne]

theorem decAll_incAll (os : List ObjId) (g : ObjId → Nat) : decAll os (incAll os g) = g := by
  funext x
  rw [decAll_apply, incAll_apply]
  omega

theorem releaseAll_withRef (os : List ObjId) (s : KernelState) (g : ObjId → Nat) :
    KHandleTable.releaseAll os (withRef s g) = withRef s (decAll os g) := by
  induction os generalizing g with
  | nil => rfl
  | cons o rest ih => rw [KHandleTable.releaseAll, Close_withRef, ih, decAll]

theorem releaseAll_eq (os : List ObjId) (s : KernelState) :
    KHandleTable.releaseAll os s = withRef s (decAll os s.ref_count) := by
  have h := releaseAll_withRef os s s.ref_count
  rwa [withRef_self] at h

theorem resolveAll_length (s : KernelState) (T : ObjKind → Bool) (hs : List Handle)
    (os : List ObjId) (h : resolveAll s T hs = some os) : os.length = hs.length := by
  induction hs generalizing os with
  | nil => simp [resolveAll] at h; simp [← h]
  | cons hd rest ih =>
    unfold resolveAll at h
    cases hg : KHandleTable.GetObject s T hd with
    | none => simp [hg] at h
    | some o =>
      simp only [hg] at h
      cases hr : resolveAll s T rest with
      | none => simp [hr] at h
      | some os' =>
        simp [hr] at h
        subst h
        simp [ih os' hr]

theorem loop_some (s : KernelState) (T : ObjKind → Bool) (hs : List Handle) (os : List ObjId)
    (h : resolveAll s T hs = some os) (acc : List ObjId) (g : ObjId → Nat) :
    KHandleTable.GetMultipleObjects.loop T hs acc (withRef s g)
      = (some (acc.reverse ++ os), withRef s (incAll os g)) := by
  induction hs generalizing os acc g with
  | nil =>
    simp [resolveAll] at h
    subst h
    simp [KHandleTable.GetMultipleObjects.loop, incAll]
  | cons hd rest ih =>
    unfold resolveAll at h
    cases hg : KHandleTable.GetObject s T hd with
    | none => simp [hg] at h
    | some o =>
      simp only [hg] at h
      cases hr : resolveAll s T rest with
      | none => simp [hr] at h
      | some os' =>
        simp [hr] at h
        subst h
        rw [KHandleTable.GetMultipleObjects.loop, GetObject_withRef, hg]
        simp only
        rw [Open_withRef, ih os' hr]
        simp [incAll]

theorem loop_none (s : KernelState) (T : ObjKind → Bool) (hs : List Handle)
    (h : resolveAll s T hs = none) (acc : List ObjId) (g : ObjId → Nat) :
    KHandleTable.GetMultipleObjects.loop T hs acc (withRef s g)
      = (none, withRef s (decAll acc g)) := by
  induction hs generalizing acc g with
  | nil => simp [resolveAll] at h
  | cons hd rest ih =>
    unfold resolveAll at h
    rw [KHandleTable.GetMultipleObjects.loop, GetObject_withRef]
    cases hg : KHandleTable.GetObject s T hd with
    | none => simp only; rw [releaseAll_withRef]
    | some o =>
      simp only [hg] at h
      cases hr : resolveAll s T rest with
      | none =>
        simp only
        rw [Open_withRef, ih hr, decAll, dec_inc]
      | some os' => simp [hr] at h

/-- All-or-nothing batch resolution: either every handle resolves and each
resolved object gains one reference per occurrence, or nothing changes. -/
theorem GetMultipleObjects_eq (s : KernelState) (T : ObjKind → Bool) (hs : List Handle) :
    KHandleTable.GetMultipleObjects s T hs =
      match resolveAll s T hs with
      | some os => (some os, withRef s (incAll os s.ref_count))
      | none => (none, s) := by
  unfold KHandleTable.GetMultipleObjects
  cases hr : resolveAll s T hs with
  | some os =>
    have h := loop_some s T hs os hr [] s.ref_count
    rw [withRef_self] at h
    simpa using h
  | none =>
    have h := loop_none s T hs hr [] s.ref_count
    rw [withRef_self] at h
    simpa [decAll, withRef_self] using h

theorem scopeExit_eq (objs : List ObjId) (k i : Nat) (s : KernelState)
    (h : i + k = objs.length) :
    Svc.WaitSynchronization.scopeExit objs k i s
      = some (KHandleTable.releaseAll (objs.drop i) s, cleanupCalls (objs.drop i)) := by
  induction k generalizing i s with
  | zero =>
    have hi : objs.length ≤ i := by omega
    simp [Svc.WaitSynchronization.scopeExit, List.drop_eq_nil_of_le hi, KHandleTable.releaseAll,
      cleanupCalls]
  | succ k ih =>
    have hi : i < objs.length := by omega
    rw [Svc.WaitSynchronization.scopeExit, List.getElem?_eq_getElem hi]
    simp only
    rw [ih (i + 1) _ (by omega)]
    rw [List.drop_eq_getElem_cons hi]
    simp only [KHandleTable.releaseAll, cleanupCalls, List.flatMap_cons, Option.map_some',
      List.cons_append, List.nil_append]

theorem readHandles_length (s : KernelState) (addr n : Nat) :
    (Svc.readHandles s addr n).length = n := by
  simp [Svc.readHandles]

/-! ## The paths through `WaitSynchronization` -/

open Svc in
theorem WaitSynchronization_rejected (Wait : WaitFn) (max : Int) (s : KernelState)
    (index : Int) (addr : Nat) (n t : Int) (h : n < 0 ∨ max < n) :
    WaitSynchronization Wait max s index addr n t
      = some ⟨Result.ResultOutOfRange, index, s, []⟩ := by
  have hn : ¬ (0 ≤ n ∧ n ≤ max) := by omega
  simp [WaitSynchronization, hn]

open Svc in
theorem WaitSynchronization_zero (Wait : WaitFn) (max : Int) (s : KernelState)
    (index : Int) (addr : Nat) (t : Int) (hmax : 0 ≤ max) :
    WaitSynchronization Wait max s index addr 0 t
      = some ⟨(Wait s [] t).result, (Wait s [] t).index.getD index, (Wait s [] t).state,
          [Call.MemoryGetPointer addr, Call.Wait [] t]⟩ := by
  simp [WaitSynchronization, hmax, WaitSynchronization.scopeExit]

open Svc in
theorem WaitSynchronization_unresolved (Wait : WaitFn) (max : Int) (s : KernelState)
    (index : Int) (addr : Nat) (n t : Int) (h1 : 1 ≤ n) (h2 : n ≤ max)
    (hr : resolveAll s ObjKind.isSynchronizationObject (readHandles s addr n.toNat) = none) :
    WaitSynchronization Wait max s index addr n t
      = some ⟨Result.ResultInvalidHandle, index, s,
          [Call.MemoryGetPointer addr, Call.GetMultipleObjects (readHandles s addr n.toNat)]⟩ := by
  have hn : 0 ≤ n ∧ n ≤ max := by omega
  have hpos : 0 < n := by omega
  simp [WaitSynchronization, hn, hpos, GetMultipleObjects_eq, hr]

open Svc in
theorem WaitSynchronization_resolved (Wait : WaitFn) (max : Int) (s : KernelState)
    (index : Int) (addr : Nat) (n t : Int) (h1 : 1 ≤ n) (h2 : n ≤ max) (objs : List ObjId)
    (hr : resolveAll s ObjKind.isSynchronizationObject (readHandles s addr n.toNat) = some objs) :
    WaitSynchronization Wait max s index addr n t
      = some ⟨(Wait (withRef s (incAll objs s.ref_count)) objs t).result,
          (Wait (withRef s (incAll objs s.ref_count)) objs t).index.getD index,
          KHandleTable.releaseAll objs (Wait (withRef s (incAll objs s.ref_count)) objs t).state,
          [Call.MemoryGetPointer addr, Call.GetMultipleObjects (readHandles s addr n.toNat)]
            ++ objs.map Call.RegisterInUseObject ++ [Call.Wait objs t] ++ cleanupCalls objs⟩ := by
  have hn : 0 ≤ n ∧ n ≤ max := by omega
  have hpos : 0 < n := by omega
  have hlen : 0 + n.toNat = objs.length := by
    rw [resolveAll_length _ _ _ _ hr, readHandles_length]; omega
  simp [WaitSynchronization, hn, hpos, GetMultipleObjects_eq, hr, scopeExit_eq _ _ _ _ hlen]

theorem count_unregister_cleanupCalls (objs : List ObjId) (o : ObjId) :
    (cleanupCalls objs).count (Call.UnregisterInUseObject o) = objs.count o := by
  induction objs with
  | nil => simp [cleanupCalls]
  | cons x rest ih =>
    have hstep : cleanupCalls (x :: rest)
        = Call.UnregisterInUseObject x :: Call.Close x :: cleanupCalls rest := by
      simp [cleanupCalls]
    rw [hstep, List.count_cons, List.count_cons, ih, List.count_cons]
    by_cases hx : x = o <;> simp [hx]

theorem count_close_cleanupCalls (objs : List ObjId) (o : ObjId) :
    (cleanupCalls objs).count (Call.Close o) = objs.count o := by
  induction objs with
  | nil => simp [cleanupCalls]
  | cons x rest ih =>
    have hstep : cleanupCalls (x :: rest)
        = Call.UnregisterInUseObject x :: Call.Close x :: cleanupCalls rest := by
      simp [cleanupCalls]
    rw [hstep, List.count_cons, List.count_cons, ih, List.count_cons]
    by_cases hx : x = o <;> simp [hx]

theorem count_register_map (objs : List ObjId) (c : Call)
    (hc : ∀ o, c ≠ Call.RegisterInUseObject o) :
    (objs.map Call.RegisterInUseObject).count c = 0 := by
  rw [List.count_eq_zero]
  intro hmem
  rcases List.mem_map.mp hmem with ⟨o, _, ho⟩
  exact hc o ho.symm

theorem resolveAll_of_GetMultipleObjects (s : KernelState) (T : ObjKind → Bool)
    (hs : List Handle) (r : Option (List ObjId))
    (h : (KHandleTable.GetMultipleObjects s T hs).1 = r) : resolveAll s T hs = r := by
  rw [GetMultipleObjects_eq] at h
  cases hr : resolveAll s T hs with
  | none => simpa [hr] using h
  | some os => simpa [hr] using h

/-! ## Claims on `WaitSynchronization` -/

open Svc in
/-- C1: `WaitSynchronization` called with `num_handles < 0` or `num_handles >
ArgumentHandleCountMax` returns `ResultOutOfRange` having made no collaborator
call at all (no guest-memory pointer, no handle resolution, no registration,
unregistration or close, no `Wait`) and leaving `*index` and the kernel state
untouched.  With `0 <= num_handles <= ArgumentHandleCountMax` the call gets
past the check: it returns, its first collaborator call obtains the guest
pointer, and its result is `ResultInvalidHandle` or the result of a `Wait` it
entered, so the check itself never yields `ResultOutOfRange`. -/
theorem WaitSynchronization_handle_count_check (Wait : WaitFn) (ArgumentHandleCountMax : Int)
    (s : KernelState) (index : Int) (handles_address : Nat) (num_handles nano_seconds : Int) :
    ((num_handles < 0 ∨ ArgumentHandleCountMax < num_handles) →
      WaitSynchronization Wait ArgumentHandleCountMax s index handles_address num_handles
          nano_seconds
        = some ⟨Result.ResultOutOfRange, index, s, []⟩) ∧
    ((0 ≤ num_handles ∧ num_handles ≤ ArgumentHandleCountMax) →
      ∃ out, WaitSynchronization Wait ArgumentHandleCountMax s index handles_address num_handles
          nano_seconds = some out ∧
        out.calls.head? = some (Call.MemoryGetPointer handles_address) ∧
        (out.result = Result.ResultInvalidHandle ∨
          ∃ s1 objs, Call.Wait objs nano_seconds ∈ out.calls ∧
            out.result = (Wait s1 objs nano_seconds).result)) := by
  refine ⟨fun h => WaitSynchronization_rejected _ _ _ _ _ _ _ h, fun h => ?_⟩
  rcases h with ⟨h0, hmax⟩
  by_cases hz : num_handles = 0
  · subst hz
    refine ⟨_, WaitSynchronization_zero Wait _ s index handles_address nano_seconds hmax, rfl, ?_⟩
    exact Or.inr ⟨s, [], by simp, rfl⟩
  · have h1 : 1 ≤ num_handles := by omega
    cases hr : resolveAll s ObjKind.isSynchronizationObject
        (readHandles s handles_address num_handles.toNat) with
    | none =>
      exact ⟨_, WaitSynchronization_unresolved Wait _ s index handles_address num_handles
        nano_seconds h1 hmax hr, rfl, Or.inl rfl⟩
    | some objs =>
      refine ⟨_, WaitSynchronization_resolved Wait _ s index handles_address num_handles
        nano_seconds h1 hmax objs hr, rfl, Or.inr ⟨_, objs, by simp, rfl⟩⟩

open Svc in
theorem WaitSynchronization_handle_count_check_witness :
    (((65 : Int) < 0 ∨ (64 : Int) < 65) ∧
      WaitSynchronization timeoutWait 64 exampleState 0 0x1000 65 5
        = some ⟨Result.ResultOutOfRange, 0, exampleState, []⟩) ∧
    (((0 : Int) ≤ 2 ∧ (2 : Int) ≤ 64) ∧
      ∃ out, WaitSynchronization timeoutWait 64 exampleState 0 0x1000 2 5 = some out ∧
        out.calls.head? = some (Call.MemoryGetPointer 0x1000) ∧
        (out.result = Result.ResultInvalidHandle ∨
          ∃ s1 objs, Call.Wait objs 5 ∈ out.calls ∧
            out.result = (timeoutWait s1 objs 5).result)) :=
  ⟨⟨by decide,
      (WaitSynchronization_handle_count_check timeoutWait 64 exampleState 0 0x1000 65 5).1
        (by decide)⟩,
    ⟨by decide,
      (WaitSynchronization_handle_count_check timeoutWait 64 exampleState 0 0x1000 2 5).2
        (by decide)⟩⟩

open Svc in
/-- C2: when `1 <= num_handles <= ArgumentHandleCountMax` and the handle
table's `GetMultipleObjects` reports failure, `WaitSynchronization` returns
`ResultInvalidHandle`; the only collaborator calls it made are obtaining the
guest pointer and the failed `GetMultipleObjects`, so no object was registered
as in use, unregistered or closed by it and `Wait` was never entered; `*index`
and the kernel state (reference counts included) are as before the call. -/
theorem WaitSynchronization_invalid_handle (Wait : WaitFn) (ArgumentHandleCountMax : Int)
    (s : KernelState) (index : Int) (handles_address : Nat) (num_handles nano_seconds : Int)
    (h1 : 1 ≤ num_handles) (h2 : num_handles ≤ ArgumentHandleCountMax)
    (hfail : (KHandleTable.GetMultipleObjects s ObjKind.isSynchronizationObject
      (readHandles s handles_address num_handles.toNat)).1 = none) :
    ∃ out, WaitSynchronization Wait ArgumentHandleCountMax s index handles_address num_handles
        nano_seconds = some out ∧
      out.result = Result.ResultInvalidHandle ∧
      out.calls = [Call.MemoryGetPointer handles_address,
        Call.GetMultipleObjects (readHandles s handles_address num_handles.toNat)] ∧
      (∀ o, Call.RegisterInUseObject o ∉ out.calls) ∧
      (∀ o, Call.UnregisterInUseObject o ∉ out.calls) ∧
      (∀ o, Call.Close o ∉ out.calls) ∧
      (∀ objs t, Call.Wait objs t ∉ out.calls) ∧
      out.state = s ∧ out.index = index := by
  have hr := resolveAll_of_GetMultipleObjects _ _ _ _ hfail
  refine ⟨_, WaitSynchronization_unresolved Wait _ s index handles_address num_handles
    nano_seconds h1 h2 hr, rfl, rfl, ?_, ?_, ?_, ?_, rfl, rfl⟩ <;> simp

open Svc in
theorem WaitSynchronization_invalid_handle_witness :
    ((1 : Int) ≤ 3 ∧ (3 : Int) ≤ 64 ∧
      (KHandleTable.GetMultipleObjects exampleState ObjKind.isSynchronizationObject
        (readHandles exampleState 0x1000 (3 : Int).toNat)).1 = none) ∧
    ∃ out, WaitSynchronization timeoutWait 64 exampleState 0 0x1000 3 5 = some out ∧
      out.result = Result.ResultInvalidHandle ∧
      out.calls = [Call.MemoryGetPointer 0x1000,
        Call.GetMultipleObjects (readHandles exampleState 0x1000 (3 : Int).toNat)] ∧
      (∀ o, Call.RegisterInUseObject o ∉ out.calls) ∧
      (∀ o, Call.UnregisterInUseObject o ∉ out.calls) ∧
      (∀ o, Call.Close o ∉ out.calls) ∧
      (∀ objs t, Call.Wait objs t ∉ out.calls) ∧
      out.state = exampleState ∧ out.index = 0 :=
  ⟨⟨by decide, by decide, by rfl⟩,
    WaitSynchronization_invalid_handle timeoutWait 64 exampleState 0 0x1000 3 5
      (by decide) (by decide) (by rfl)⟩

open Svc in
/-- C3: when the handle count is valid and resolution yields the objects
`objs`, then for every `Wait` whatsoever (any result code) the call returns,
`objs` has exactly `num_handles` entries and the cleanup loop never reads
`objs` out of bounds; the result is the one `Wait` returned; after the `Wait`
call the log consists of exactly one `UnregisterInUseObject` followed by one
`Close` per entry of `objs`, in order, and none occurs earlier, so each object
is unregistered and closed as many times as it occurs in `objs`; and if `Wait`
itself leaves reference counts as it found them, every reference count after
the call equals its value before the call. -/
theorem WaitSynchronization_cleanup (Wait : WaitFn) (ArgumentHandleCountMax : Int)
    (s : KernelState) (index : Int) (handles_address : Nat) (num_handles nano_seconds : Int)
    (objs : List ObjId)
    (hvalid : 0 ≤ num_handles ∧ num_handles ≤ ArgumentHandleCountMax)
    (hres : (KHandleTable.GetMultipleObjects s ObjKind.isSynchronizationObject
      (readHandles s handles_address num_handles.toNat)).1 = some objs) :
    ∃ out, WaitSynchronization Wait ArgumentHandleCountMax s index handles_address num_handles
        nano_seconds = some out ∧
      (objs.length : Int) = num_handles ∧
      (∀ st, (WaitSynchronization.scopeExit objs num_handles.toNat 0 st).isSome) ∧
      out.result = (Wait (withRef s (incAll objs s.ref_count)) objs nano_seconds).result ∧
      (∃ before, out.calls = before ++ [Call.Wait objs nano_seconds] ++ cleanupCalls objs ∧
        (∀ o, Call.UnregisterInUseObject o ∉ before) ∧ (∀ o, Call.Close o ∉ before)) ∧
      (∀ o, out.calls.count (Call.UnregisterInUseObject o) = objs.count o) ∧
      (∀ o, out.calls.count (Call.Close o) = objs.count o) ∧
      ((∀ s1 os t, (Wait s1 os t).state.ref_count = s1.ref_count) →
        ∀ o, out.state.ref_count o = s.ref_count o) := by
  rcases hvalid with ⟨h0, hmax⟩
  have hr := resolveAll_of_GetMultipleObjects _ _ _ _ hres
  have hlen : objs.length = num_handles.toNat := by
    rw [resolveAll_length _ _ _ _ hr, readHandles_length]
  have hlenI : (objs.length : Int) = num_handles := by rw [hlen]; omega
  have hsafe : ∀ st, (WaitSynchronization.scopeExit objs num_handles.toNat 0 st).isSome := by
    intro st
    rw [scopeExit_eq objs num_handles.toNat 0 st (by omega)]
    rfl
  have hrefs : (∀ s1 os t, (Wait s1 os t).state.ref_count = s1.ref_count) →
      ∀ o, (KHandleTable.releaseAll objs
        (Wait (withRef s (incAll objs s.ref_count)) objs nano_seconds).state).ref_count o
          = s.ref_count o := by
    intro hW o
    rw [releaseAll_eq]
    show decAll objs _ o = _
    rw [hW]
    show decAll objs (incAll objs s.ref_count) o = _
    rw [decAll_incAll]
  by_cases hz : num_handles = 0
  · subst hz
    have hnil : objs = [] := List.length_eq_zero.mp (by simpa using hlen)
    subst hnil
    refine ⟨_, WaitSynchronization_zero Wait _ s index handles_address nano_seconds hmax,
      hlenI, hsafe, rfl, ⟨[Call.MemoryGetPointer handles_address], by simp [cleanupCalls],
        by simp, by simp⟩, by simp, by simp, ?_⟩
    intro hW o
    exact hW s [] nano_seconds ▸ rfl
  · have h1 : 1 ≤ num_handles := by omega
    refine ⟨_, WaitSynchronization_resolved Wait _ s index handles_address num_handles
      nano_seconds h1 hmax objs hr, hlenI, hsafe, rfl, ⟨_, rfl, ?_, ?_⟩, ?_, ?_, hrefs⟩
    · intro o; simp
    · intro o; simp
    · intro o
      simp only [List.count_append, count_unregister_cleanupCalls]
      rw [count_register_map objs _ (by intro x; simp)]
      simp
    · intro o
      simp only [List.count_append, count_close_cleanupCalls]
      rw [count_register_map objs _ (by intro x; simp)]
      simp

open Svc in
theorem WaitSynchronization_cleanup_witness :
    (((0 : Int) ≤ 2 ∧ (2 : Int) ≤ 64) ∧
      (KHandleTable.GetMultipleObjects exampleState ObjKind.isSynchronizationObject
        (readHandles exampleState 0x1000 (2 : Int).toNat)).1 = some [10, 11] ∧
      (∀ s1 os t, (timeoutWait s1 os t).state.ref_count = s1.ref_count)) ∧
    ∃ out, WaitSynchronization timeoutWait 64 exampleState 0 0x1000 2 5 = some out ∧
      out.result = Result.ResultTimedOut ∧
      (∃ before, out.calls = before ++ [Call.Wait [10, 11] 5] ++ cleanupCalls [10, 11] ∧
        (∀ o, Call.UnregisterInUseObject o ∉ before) ∧ (∀ o, Call.Close o ∉ before)) ∧
      (∀ o, out.calls.count (Call.UnregisterInUseObject o) = ([10, 11] : List ObjId).count o) ∧
      (∀ o, out.calls.count (Call.Close o) = ([10, 11] : List ObjId).count o) ∧
      (∀ o, out.state.ref_count o = exampleState.ref_count o) := by
  refine ⟨⟨by decide, by rfl, fun _ _ _ => rfl⟩, ?_⟩
  obtain ⟨out, hout, _, _, hres, hcalls, hunreg, hclose, hrefs⟩ :=
    WaitSynchronization_cleanup timeoutWait 64 exampleState 0 0x1000 2 5 [10, 11]
      (by decide) (by rfl)
  exact ⟨out, hout, hres, hcalls, hunreg, hclose, hrefs (fun _ _ _ => rfl)⟩

open Svc in
/-- C8: with `num_handles = 0` (and a non-negative `ArgumentHandleCountMax`)
`WaitSynchronization` makes exactly two collaborator calls, obtaining the guest
pointer and `Wait` on the empty object list with the given timeout: it never
calls `GetMultipleObjects`, registers, unregisters and closes nothing, and its
result, index and final state are exactly those of that `Wait`.  With the
spec's `Wait` and a zero timeout the result is `ResultTimedOut`, whatever would
have ended a suspension. -/
theorem WaitSynchronization_no_handles (Wait : WaitFn) (ArgumentHandleCountMax : Int)
    (s : KernelState) (index : Int) (handles_address : Nat) (nano_seconds : Int)
    (wake : WakeCause) (hmax : 0 ≤ ArgumentHandleCountMax) :
    (∃ out, WaitSynchronization Wait ArgumentHandleCountMax s index handles_address 0
        nano_seconds = some out ∧
      out.result = (Wait s [] nano_seconds).result ∧
      out.index = (Wait s [] nano_seconds).index.getD index ∧
      out.state = (Wait s [] nano_seconds).state ∧
      out.calls = [Call.MemoryGetPointer handles_address, Call.Wait [] nano_seconds] ∧
      (∀ hs, Call.GetMultipleObjects hs ∉ out.calls) ∧
      (∀ o, Call.RegisterInUseObject o ∉ out.calls) ∧
      (∀ o, Call.UnregisterInUseObject o ∉ out.calls) ∧
      (∀ o, Call.Close o ∉ out.calls)) ∧
    WaitSynchronization (KSynchronizationObject.Wait wake) ArgumentHandleCountMax s index
        handles_address 0 0
      = some ⟨Result.ResultTimedOut, index, s,
          [Call.MemoryGetPointer handles_address, Call.Wait [] 0]⟩ := by
  refine ⟨⟨_, WaitSynchronization_zero Wait _ s index handles_address nano_seconds hmax,
    rfl, rfl, rfl, rfl, ?_, ?_, ?_, ?_⟩, ?_⟩
  · intro hs; simp
  · intro o; simp
  · intro o; simp
  · intro o; simp
  · rw [WaitSynchronization_zero _ _ s index handles_address 0 hmax]
    rfl

open Svc in
theorem WaitSynchronization_no_handles_witness :
    (0 : Int) ≤ 64 ∧
    ((∃ out, WaitSynchronization timeoutWait 64 exampleState 7 0x1000 0 5 = some out ∧
      out.result = (timeoutWait exampleState [] 5).result ∧
      out.index = (timeoutWait exampleState [] 5).index.getD 7 ∧
      out.state = (timeoutWait exampleState [] 5).state ∧
      out.calls = [Call.MemoryGetPointer 0x1000, Call.Wait [] 5] ∧
      (∀ hs, Call.GetMultipleObjects hs ∉ out.calls) ∧
      (∀ o, Call.RegisterInUseObject o ∉ out.calls) ∧
      (∀ o, Call.UnregisterInUseObject o ∉ out.calls) ∧
      (∀ o, Call.Close o ∉ out.calls)) ∧
    WaitSynchronization (KSynchronizationObject.Wait WakeCause.Cancelled) 64 exampleState 7
        0x1000 0 0
      = some ⟨Result.ResultTimedOut, 7, exampleState,
          [Call.MemoryGetPointer 0x1000, Call.Wait [] 0]⟩) :=
  ⟨by decide,
    WaitSynchronization_no_handles timeoutWait 64 exampleState 7 0x1000 5 WakeCause.Cancelled
      (by decide)⟩

/-! ## Handle table: issued and removed handles -/

theorem firstFree_spec (l : List Slot) (k i : Nat) (h : KHandleTable.firstFree l k = some i) :
    k ≤ i ∧ ∃ slot, l[i - k]? = some slot ∧ slot.object = none := by
  induction l generalizing k with
  | nil => simp [KHandleTable.firstFree] at h
  | cons sl rest ih =>
    unfold KHandleTable.firstFree at h
    by_cases hfree : sl.object = none
    · simp [hfree] at h
      subst h
      exact ⟨le_refl _, sl, by simp, hfree⟩
    · simp [hfree] at h
      rcases ih (k + 1) h with ⟨hle, slot, hget, hnone⟩
      refine ⟨by omega, slot, ?_, hnone⟩
      have hik : i - k = (i - (k + 1)) + 1 := by omega
      rw [hik, List.getElem?_cons_succ]
      exact hget

theorem tableInv_empty : tableInv [] [] [] := by
  refine ⟨?_, ?_, ?_⟩
  · intro h hh; simp at hh
  · intro i slot o hget; simp at hget
  · intro h hh; simp at hh

theorem tableInv_reuse (l : List Slot) (issued removed : List Handle) (i : Nat) (old : Slot)
    (o : ObjId) (hinv : tableInv l issued removed) (hget : l[i]? = some old) :
    tableInv (l.set i ⟨old.generation + 1, some o⟩)
      (⟨i, old.generation + 1⟩ :: issued) removed := by
  rcases hinv with ⟨h1, h2, h3⟩
  have hlt : i < l.length := (List.getElem?_eq_some.mp hget).1
  have hfresh : (⟨i, old.generation + 1⟩ : Handle) ∉ issued := by
    intro hmem
    rcases h1 _ hmem with ⟨slot, hs, hle⟩
    simp only at hs hle
    rw [hget] at hs
    cases hs
    omega
  refine ⟨?_, ?_, ?_⟩
  · intro h hh
    rcases List.mem_cons.mp hh with heq | hmem
    · subst heq
      exact ⟨_, List.getElem?_set_self hlt, le_refl _⟩
    · rcases h1 h hmem with ⟨slot, hs, hle⟩
      by_cases hidx : i = h.index
      · refine ⟨⟨old.generation + 1, some o⟩, ?_, ?_⟩
        · rw [← hidx]; exact List.getElem?_set_self hlt
        · rw [← hidx, hget] at hs
          cases hs
          simp only
          omega
      · exact ⟨slot, by rw [List.getElem?_set_ne hidx]; exact hs, hle⟩
  · intro j slot o' hs ho
    by_cases hidx : i = j
    · subst hidx
      rw [List.getElem?_set_self hlt] at hs
      cases hs
      exact ⟨List.mem_cons_self _ _, fun hr => hfresh (h3 _ hr)⟩
    · rw [List.getElem?_set_ne hidx] at hs
      rcases h2 j slot o' hs ho with ⟨hi, hr⟩
      exact ⟨List.mem_cons_of_mem _ hi, hr⟩
  · intro h hh
    exact List.mem_cons_of_mem _ (h3 h hh)

theorem tableInv_grow (l : List Slot) (issued removed : List Handle) (o : ObjId)
    (hinv : tableInv l issued removed) :
    tableInv (l ++ [⟨1, some o⟩]) (⟨l.length, 1⟩ :: issued) removed := by
  rcases hinv with ⟨h1, h2, h3⟩
  have hfresh : (⟨l.length, 1⟩ : Handle) ∉ issued := by
    intro hmem
    rcases h1 _ hmem with ⟨slot, hs, _⟩
    simp at hs
  refine ⟨?_, ?_, ?_⟩
  · intro h hh
    rcases List.mem_cons.mp hh with heq | hmem
    · subst heq
      exact ⟨⟨1, some o⟩, by simp, le_refl _⟩
    · rcases h1 h hmem with ⟨slot, hs, hle⟩
      have hlt : h.index < l.length := (List.getElem?_eq_some.mp hs).1
      exact ⟨slot, by rw [List.getElem?_append_left hlt]; exact hs, hle⟩
  · intro j slot o' hs ho
    by_cases hj : j < l.length
    · rw [List.getElem?_append_left hj] at hs
      rcases h2 j slot o' hs ho with ⟨hi, hr⟩
      exact ⟨List.mem_cons_of_mem _ hi, hr⟩
    · have hjl : l.length ≤ j := by omega
      rw [List.getElem?_append_right hjl] at hs
      have hj0 : j - l.length = 0 := by
        by_contra hne
        have : (([⟨1, some o⟩] : List Slot))[j - l.length]? = none :=
          List.getElem?_eq_none (by simp; omega)
        rw [this] at hs
        cases hs
      rw [hj0] at hs
      simp at hs
      subst hs
      have hje : j = l.length := by omega
      subst hje
      exact ⟨List.mem_cons_self _ _, fun hr => hfresh (h3 _ hr)⟩
  · intro h hh
    exact List.mem_cons_of_mem _ (h3 h hh)

theorem tableInv_free (l : List Slot) (issued removed : List Handle) (h : Handle) (o : ObjId)
    (hinv : tableInv l issued removed) (hlook : KHandleTable.Lookup l h = some o) :
    tableInv (l.set h.index ⟨h.generation, none⟩) issued (h :: removed) := by
  rcases hinv with ⟨h1, h2, h3⟩
  unfold KHandleTable.Lookup at hlook
  cases hget : l[h.index]? with
  | none => simp [hget] at hlook
  | some old =>
    simp only [hget] at hlook
    by_cases hgen : old.generation = h.generation
    · simp only [hgen, if_true] at hlook
      have hlt : h.index < l.length := (List.getElem?_eq_some.mp hget).1
      have hissued : h ∈ issued := by
        have := (h2 h.index old o hget hlook).1
        rw [hgen] at this
        exact this
      refine ⟨?_, ?_, ?_⟩
      · intro h' hh
        rcases h1 h' hh with ⟨slot, hs, hle⟩
        by_cases hidx : h.index = h'.index
        · refine ⟨⟨h.generation, none⟩, ?_, ?_⟩
          · rw [← hidx]; exact List.getElem?_set_self hlt
          · rw [← hidx, hget] at hs
            cases hs
            simp only
            omega
        · exact ⟨slot, by rw [List.getElem?_set_ne hidx]; exact hs, hle⟩
      · intro j slot o' hs ho
        by_cases hidx : h.index = j
        · subst hidx
          rw [List.getElem?_set_self hlt] at hs
          cases hs
          simp at ho
        · rw [List.getElem?_set_ne hidx] at hs
          rcases h2 j slot o' hs ho with ⟨hi, hr⟩
          refine ⟨hi, ?_⟩
          intro hmem
          rcases List.mem_cons.mp hmem with heq | hmem'
          · apply hidx
            rw [← heq]
          · exact hr hmem'
      · intro h' hh
        rcases List.mem_cons.mp hh with heq | hmem
        · rw [heq]; exact hissued
        · exact h3 h' hmem
    · simp [hgen] at hlook

theorem tableInv_step (t : TableHistory) (op : TableOp)
    (hinv : tableInv t.state.handle_table t.issued t.removed) :
    tableInv (t.step op).state.handle_table (t.step op).issued (t.step op).removed := by
  cases op with
  | Add o =>
    simp only [TableHistory.step, KHandleTable.Add]
    cases hf : KHandleTable.firstFree t.state.handle_table 0 with
    | none => exact tableInv_grow _ _ _ o hinv
    | some i =>
      rcases firstFree_spec _ _ _ hf with ⟨_, old, hget, _⟩
      simp only [Nat.sub_zero] at hget
      have hgen : (t.state.handle_table.getD i ⟨0, none⟩).generation = old.generation := by
        rw [List.getD_eq_getElem?_getD, hget]
        rfl
      simp only [hgen]
      exact tableInv_reuse _ _ _ i old o hinv hget
  | Remove h =>
    cases hl : KHandleTable.Lookup t.state.handle_table h with
    | none =>
      have hr : KHandleTable.Remove t.state h = (false, t.state) := by
        simp [KHandleTable.Remove, hl]
      simp only [TableHistory.step, hr]
      simpa using hinv
    | some o =>
      have hr : KHandleTable.Remove t.state h = (true, KAutoObject.Close o
          { t.state with
            handle_table := t.state.handle_table.set h.index ⟨h.generation, none⟩ }) := by
        simp [KHandleTable.Remove, hl]
      simp only [TableHistory.step, hr]
      simpa [KAutoObject.Close] using tableInv_free _ _ _ h o hinv hl

theorem tableInv_foldl (ops : List TableOp) (t : TableHistory)
    (hinv : tableInv t.state.handle_table t.issued t.removed) :
    tableInv (ops.foldl TableHistory.step t).state.handle_table
      (ops.foldl TableHistory.step t).issued (ops.foldl TableHistory.step t).removed := by
  induction ops generalizing t with
  | nil => exact hinv
  | cons op rest ih => exact ih _ (tableInv_step t op hinv)

theorem tableInv_runTable (s : KernelState) (ops : List TableOp) (hs : s.handle_table = []) :
    tableInv (runTable s ops).state.handle_table (runTable s ops).issued
      (runTable s ops).removed := by
  apply tableInv_foldl
  simp only [hs]
  exact tableInv_empty

theorem Lookup_none_of_not_live (l : List Slot) (issued removed : List Handle) (h : Handle)
    (hinv : tableInv l issued removed) (hdead : h ∉ issued ∨ h ∈ removed) :
    KHandleTable.Lookup l h = none := by
  cases hl : KHandleTable.Lookup l h with
  | none => rfl
  | some o =>
    exfalso
    unfold KHandleTable.Lookup at hl
    cases hget : l[h.index]? with
    | none => simp [hget] at hl
    | some slot =>
      simp only [hget] at hl
      by_cases hgen : slot.generation = h.generation
      · simp only [hgen, if_true] at hl
        have hlive := hinv.2.1 h.index slot o hget hl
        rw [hgen] at hlive
        rcases hdead with hni | hrem
        · exact hni hlive.1
        · exact hlive.2 hrem
      · simp [hgen] at hl

/-! ## Claims on `CloseHandle` -/

open Svc in
/-- C4: `CloseHandle` returns `ResultInvalidHandle` if and only if the handle
table's `Remove(handle)` returns false, and `ResultSuccess` otherwise, leaving
the state `Remove` left; consequently, after any sequence of `Add` and `Remove`
operations on an initially empty handle table, `CloseHandle` returns
`ResultInvalidHandle` for every handle that no `Add` has issued and for every
handle that a `Remove` has already taken back.  `CloseHandle32` returns what
`CloseHandle` returns. -/
theorem CloseHandle_invalid_handle (s : KernelState) (handle : Handle) :
    ((CloseHandle s handle).result = Result.ResultInvalidHandle ↔
      (KHandleTable.Remove s handle).1 = false) ∧
    ((KHandleTable.Remove s handle).1 = true →
      (CloseHandle s handle).result = Result.ResultSuccess) ∧
    (CloseHandle s handle).state = (KHandleTable.Remove s handle).2 ∧
    (∀ (s0 : KernelState) (ops : List TableOp), s0.handle_table = [] →
      (handle ∉ (runTable s0 ops).issued ∨ handle ∈ (runTable s0 ops).removed) →
      (CloseHandle (runTable s0 ops).state handle).result = Result.ResultInvalidHandle) ∧
    CloseHandle32 s handle = CloseHandle s handle := by
  refine ⟨?_, ?_, ?_, ?_, rfl⟩
  · unfold CloseHandle
    cases hr : (KHandleTable.Remove s handle).1 <;> simp [hr]
  · intro hr
    simp [CloseHandle, hr]
  · unfold CloseHandle
    cases hr : (KHandleTable.Remove s handle).1 <;> simp [hr]
  · intro s0 ops hs0 hdead
    have hl := Lookup_none_of_not_live _ _ _ handle (tableInv_runTable s0 ops hs0) hdead
    simp [CloseHandle, KHandleTable.Remove, hl]

open Svc in
theorem CloseHandle_invalid_handle_witness :
    ((KHandleTable.Remove exampleState ⟨1, 1⟩).1 = true ∧
      (CloseHandle exampleState ⟨1, 1⟩).result = Result.ResultSuccess) ∧
    ((emptyTableState.handle_table = [] ∧
      ((⟨0, 1⟩ : Handle) ∉
          (runTable emptyTableState
            [TableOp.Add 10, TableOp.Remove ⟨0, 1⟩, TableOp.Add 11]).issued ∨
        (⟨0, 1⟩ : Handle) ∈
          (runTable emptyTableState
            [TableOp.Add 10, TableOp.Remove ⟨0, 1⟩, TableOp.Add 11]).removed)) ∧
      (CloseHandle
        (runTable emptyTableState [TableOp.Add 10, TableOp.Remove ⟨0, 1⟩, TableOp.Add 11]).state
        ⟨0, 1⟩).result = Result.ResultInvalidHandle) :=
  ⟨⟨by rfl, (CloseHandle_invalid_handle exampleState ⟨1, 1⟩).2.1 (by rfl)⟩,
    ⟨⟨rfl, Or.inr (by decide)⟩,
      (CloseHandle_invalid_handle exampleState ⟨0, 1⟩).2.2.2.1 emptyTableState
        [TableOp.Add 10, TableOp.Remove ⟨0, 1⟩, TableOp.Add 11] rfl (Or.inr (by decide))⟩⟩

/-! ## Claims on `WaitSynchronization32` -/

theorem pack_timeout (timeout_low timeout_high : Nat) (hlow : timeout_low < 2 ^ 32)
    (hhigh : timeout_high < 2 ^ 32) :
    ((timeout_high <<< 32) % 2 ^ 64) ||| timeout_low = timeout_high * 2 ^ 32 + timeout_low := by
  have hlt : timeout_high <<< 32 < 2 ^ 64 := by
    rw [Nat.shiftLeft_eq]
    norm_num at hhigh ⊢
    omega
  rw [Nat.mod_eq_of_lt hlt, Nat.shiftLeft_eq, Nat.mul_comm,
    ← Nat.mul_add_lt_is_or hlow timeout_high]

theorem testBit_31 (x : Nat) (hx : x < 2 ^ 32) : x.testBit 31 = true ↔ 2 ^ 31 ≤ x := by
  rw [Nat.testBit_to_div_mod, decide_eq_true_iff]
  norm_num at hx ⊢
  omega

open Svc in
/-- C5: for 32-bit values `timeout_low` and `timeout_high`,
`WaitSynchronization32` is `WaitSynchronization` with the same index, the same
(zero-extended) handles address, the same `num_handles`, and the signed 64-bit
timeout whose bit pattern is `timeout_high * 2^32 + timeout_low`: that timeout
lies in the signed 64-bit range, is congruent to `timeout_high * 2^32 +
timeout_low` modulo `2^64`, has `timeout_low` as its low 32 bits, and is
negative exactly when bit 31 of `timeout_high` is set. -/
theorem WaitSynchronization32_timeout (Wait : WaitFn) (ArgumentHandleCountMax : Int)
    (s : KernelState) (timeout_low handles_address : Nat) (num_handles : Int)
    (timeout_high : Nat) (index : Int)
    (hlow : timeout_low < 2 ^ 32) (hhigh : timeout_high < 2 ^ 32) :
    WaitSynchronization32 Wait ArgumentHandleCountMax s timeout_low handles_address num_handles
        timeout_high index
      = WaitSynchronization Wait ArgumentHandleCountMax s index handles_address num_handles
          (toS64 (timeout_high * 2 ^ 32 + timeout_low)) ∧
    (-(2 : Int) ^ 63 ≤ toS64 (timeout_high * 2 ^ 32 + timeout_low) ∧
      toS64 (timeout_high * 2 ^ 32 + timeout_low) < (2 : Int) ^ 63) ∧
    toS64 (timeout_high * 2 ^ 32 + timeout_low) % (2 : Int) ^ 64
      = ((timeout_high * 2 ^ 32 + timeout_low : Nat) : Int) ∧
    toS64 (timeout_high * 2 ^ 32 + timeout_low) % (2 : Int) ^ 32 = (timeout_low : Int) ∧
    (toS64 (timeout_high * 2 ^ 32 + timeout_low) < 0 ↔ timeout_high.testBit 31 = true) := by
  refine ⟨?_, ?_, ?_, ?_, ?_⟩
  · unfold WaitSynchronization32
    rw [pack_timeout timeout_low timeout_high hlow hhigh]
  · unfold toS64
    norm_num at hlow hhigh ⊢
    split <;> omega
  · unfold toS64
    norm_num at hlow hhigh ⊢
    split <;> omega
  · unfold toS64
    norm_num at hlow hhigh ⊢
    split <;> omega
  · rw [testBit_31 timeout_high hhigh]
    unfold toS64
    norm_num at hlow hhigh ⊢
    split <;> omega

open Svc in
theorem WaitSynchronization32_timeout_witness :
    ((0xFFFFFFFF : Nat) < 2 ^ 32 ∧ (0x80000000 : Nat) < 2 ^ 32) ∧
    (WaitSynchronization32 timeoutWait 64 exampleState 0xFFFFFFFF 0x1000 2 0x80000000 0
      = WaitSynchronization timeoutWait 64 exampleState 0 0x1000 2
          (toS64 (0x80000000 * 2 ^ 32 + 0xFFFFFFFF)) ∧
    (-(2 : Int) ^ 63 ≤ toS64 (0x80000000 * 2 ^ 32 + 0xFFFFFFFF) ∧
      toS64 (0x80000000 * 2 ^ 32 + 0xFFFFFFFF) < (2 : Int) ^ 63) ∧
    toS64 (0x80000000 * 2 ^ 32 + 0xFFFFFFFF) % (2 : Int) ^ 64
      = ((0x80000000 * 2 ^ 32 + 0xFFFFFFFF : Nat) : Int) ∧
    toS64 (0x80000000 * 2 ^ 32 + 0xFFFFFFFF) % (2 : Int) ^ 32 = ((0xFFFFFFFF : Nat) : Int) ∧
    (toS64 (0x80000000 * 2 ^ 32 + 0xFFFFFFFF) < 0 ↔ (0x80000000 : Nat).testBit 31 = true)) :=
  ⟨⟨by norm_num, by norm_num⟩,
    WaitSynchronization32_timeout timeoutWait 64 exampleState 0xFFFFFFFF 0x1000 2 0x80000000 0
      (by norm_num) (by norm_num)⟩

/-! ## Claims on `ResetSignal` -/

open Svc in
/-- C6, as stated, fails: `ResetSignal` returns the result of the matched
object's `Reset` unchanged.  In the example state handle (0, 1) names readable
event 10, which is not signaled; with a `Reset` that reports code 125 on such
an event, `ResetSignal` reports a failure that is not `ResultInvalidHandle`. -/
theorem ResetSignal_forwards_reset_failure :
    (ResetSignal resetIfSignaled resetIfSignaled exampleState ⟨0, 1⟩).result = Result.Other 125 ∧
    (ResetSignal resetIfSignaled resetIfSignaled exampleState ⟨0, 1⟩).result
      ≠ Result.ResultSuccess ∧
    (ResetSignal resetIfSignaled resetIfSignaled exampleState ⟨0, 1⟩).result
      ≠ Result.ResultInvalidHandle := by
  refine ⟨by rfl, ?_, ?_⟩ <;> decide

open Svc in
/-- C6, amended: `ResetSignal` first looks the handle up as a readable event
and, only if that yields no object, as a process.  If it resolves as a readable
event, exactly that event's `Reset` is performed, no process is looked up or
reset, and the result is that `Reset`'s result; else if it resolves as a
process, exactly that process's `Reset` is performed and the result is that
`Reset`'s result; if it resolves to neither, the result is
`ResultInvalidHandle` and the kernel state is unchanged.  `ResultInvalidHandle`
is the only failure `ResetSignal` originates: every other result is the
forwarded result of the matched object's `Reset`, so if neither `Reset` can
fail the result is `ResultSuccess` or `ResultInvalidHandle`.  `ResetSignal32`
returns what `ResetSignal` returns. -/
theorem ResetSignal_resolution_order (EventReset ProcessReset : ResetResultFn)
    (s : KernelState) (handle : Handle) :
    (∀ e, KHandleTable.GetObject s (fun k => decide (k = ObjKind.ReadableEvent)) handle = some e →
      ResetSignal EventReset ProcessReset s handle
        = ⟨EventReset s e, ClearSignaled e s,
            [Call.GetObjectReadableEvent handle, Call.ReadableEventReset e]⟩) ∧
    (∀ p, KHandleTable.GetObject s (fun k => decide (k = ObjKind.ReadableEvent)) handle = none →
      KHandleTable.GetObject s (fun k => decide (k = ObjKind.Process)) handle = some p →
      ResetSignal EventReset ProcessReset s handle
        = ⟨ProcessReset s p, ClearSignaled p s,
            [Call.GetObjectReadableEvent handle, Call.GetObjectProcess handle,
              Call.ProcessReset p]⟩) ∧
    (KHandleTable.GetObject s (fun k => decide (k = ObjKind.ReadableEvent)) handle = none →
      KHandleTable.GetObject s (fun k => decide (k = ObjKind.Process)) handle = none →
      ResetSignal EventReset ProcessReset s handle
        = ⟨Result.ResultInvalidHandle, s,
            [Call.GetObjectReadableEvent handle, Call.GetObjectProcess handle]⟩) ∧
    ((ResetSignal EventReset ProcessReset s handle).result = Result.ResultInvalidHandle ∨
      (∃ e, Call.ReadableEventReset e ∈ (ResetSignal EventReset ProcessReset s handle).calls ∧
        (ResetSignal EventReset ProcessReset s handle).result = EventReset s e) ∨
      (∃ p, Call.ProcessReset p ∈ (ResetSignal EventReset ProcessReset s handle).calls ∧
        (ResetSignal EventReset ProcessReset s handle).result = ProcessReset s p)) ∧
    ((∀ s1 o, EventReset s1 o = Result.ResultSuccess) →
      (∀ s1 o, ProcessReset s1 o = Result.ResultSuccess) →
      (ResetSignal EventReset ProcessReset s handle).result = Result.ResultSuccess ∨
        (ResetSignal EventReset ProcessReset s handle).result = Result.ResultInvalidHandle) ∧
    ResetSignal32 EventReset ProcessReset s handle
      = ResetSignal EventReset ProcessReset s handle := by
  refine ⟨?_, ?_, ?_, ?_, ?_, rfl⟩
  · intro e he
    simp [ResetSignal, he]
  · intro p he hp
    simp [ResetSignal, he, hp]
  · intro he hp
    simp [ResetSignal, he, hp]
  · unfold ResetSignal
    cases he : KHandleTable.GetObject s (fun k => decide (k = ObjKind.ReadableEvent)) handle with
    | some e => exact Or.inr (Or.inl ⟨e, by simp, rfl⟩)
    | none =>
      cases hp : KHandleTable.GetObject s (fun k => decide (k = ObjKind.Process)) handle with
      | some p => exact Or.inr (Or.inr ⟨p, by simp, rfl⟩)
      | none => exact Or.inl rfl
  · intro hE hP
    unfold ResetSignal
    cases he : KHandleTable.GetObject s (fun k => decide (k = ObjKind.ReadableEvent)) handle with
    | some e => exact Or.inl (hE s e)
    | none =>
      cases hp : KHandleTable.GetObject s (fun k => decide (k = ObjKind.Process)) handle with
      | some p => exact Or.inl (hP s p)
      | none => exact Or.inr rfl

open Svc in
theorem ResetSignal_resolution_order_witness :
    (KHandleTable.GetObject exampleState (fun k => decide (k = ObjKind.ReadableEvent)) ⟨0, 1⟩
        = some 10 ∧
      ResetSignal resetIfSignaled resetIfSignaled exampleState ⟨0, 1⟩
        = ⟨resetIfSignaled exampleState 10, ClearSignaled 10 exampleState,
            [Call.GetObjectReadableEvent ⟨0, 1⟩, Call.ReadableEventReset 10]⟩) ∧
    ((KHandleTable.GetObject exampleState (fun k => decide (k = ObjKind.ReadableEvent)) ⟨1, 1⟩
        = none ∧
      KHandleTable.GetObject exampleState (fun k => decide (k = ObjKind.Process)) ⟨1, 1⟩
        = some 11) ∧
      ResetSignal resetIfSignaled resetIfSignaled exampleState ⟨1, 1⟩
        = ⟨resetIfSignaled exampleState 11, ClearSignaled 11 exampleState,
            [Call.GetObjectReadableEvent ⟨1, 1⟩, Call.GetObjectProcess ⟨1, 1⟩,
              Call.ProcessReset 11]⟩) ∧
    ((KHandleTable.GetObject exampleState (fun k => decide (k = ObjKind.ReadableEvent)) ⟨3, 1⟩
        = none ∧
      KHandleTable.GetObject exampleState (fun k => decide (k = ObjKind.Process)) ⟨3, 1⟩
        = none) ∧
      ResetSignal resetIfSignaled resetIfSignaled exampleState ⟨3, 1⟩
        = ⟨Result.ResultInvalidHandle, exampleState,
            [Call.GetObjectReadableEvent ⟨3, 1⟩, Call.GetObjectProcess ⟨3, 1⟩]⟩) ∧
    (((∀ s1 o, resetAlways s1 o = Result.ResultSuccess) ∧
      (∀ s1 o, resetAlways s1 o = Result.ResultSuccess)) ∧
      ((ResetSignal resetAlways resetAlways exampleState ⟨0, 1⟩).result = Result.ResultSuccess ∨
        (ResetSignal resetAlways resetAlways exampleState ⟨0, 1⟩).result
          = Result.ResultInvalidHandle)) :=
  ⟨⟨by rfl,
      (ResetSignal_resolution_order resetIfSignaled resetIfSignaled exampleState ⟨0, 1⟩).1 10
        (by rfl)⟩,
    ⟨⟨by rfl, by rfl⟩,
      (ResetSignal_resolution_order resetIfSignaled resetIfSignaled exampleState ⟨1, 1⟩).2.1 11
        (by rfl) (by rfl)⟩,
    ⟨⟨by rfl, by rfl⟩,
      (ResetSignal_resolution_order resetIfSignaled resetIfSignaled exampleState ⟨3, 1⟩).2.2.1
        (by rfl) (by rfl)⟩,
    ⟨⟨fun _ _ => rfl, fun _ _ => rfl⟩,
      (ResetSignal_resolution_order resetAlways resetAlways exampleState ⟨0, 1⟩).2.2.2.2.1
        (fun _ _ => rfl) (fun _ _ => rfl)⟩⟩

/-! ## Claims on `CancelSynchronization` -/

open Svc in
/-- C7: `CancelSynchronization` returns `ResultInvalidHandle` if and only if
the handle does not resolve to a thread in the current process's handle table,
and then performs no cancellation and leaves the kernel state unchanged; when
the handle resolves to a thread it calls that thread's `WaitCancel` once and
returns `ResultSuccess` whether or not the thread is waiting; on a thread that
is not waiting the kernel state after the call is the state before it.
`CancelSynchronization32` returns what `CancelSynchronization` returns. -/
theorem CancelSynchronization_result (s : KernelState) (handle : Handle) :
    ((CancelSynchronization s handle).result = Result.ResultInvalidHandle ↔
      KHandleTable.GetObject s (fun k => decide (k = ObjKind.Thread)) handle = none) ∧
    (KHandleTable.GetObject s (fun k => decide (k = ObjKind.Thread)) handle = none →
      CancelSynchronization s handle
        = ⟨Result.ResultInvalidHandle, s, [Call.GetObjectThread handle]⟩) ∧
    (∀ t, KHandleTable.GetObject s (fun k => decide (k = ObjKind.Thread)) handle = some t →
      CancelSynchronization s handle
        = ⟨Result.ResultSuccess, KThread.WaitCancel t s,
            [Call.GetObjectThread handle, Call.WaitCancel t]⟩ ∧
      (s.wait_state t ≠ ThreadWaitState.Waiting →
        (CancelSynchronization s handle).state = s)) ∧
    CancelSynchronization32 s handle = CancelSynchronization s handle := by
  refine ⟨?_, ?_, ?_, rfl⟩
  · unfold CancelSynchronization
    cases ht : KHandleTable.GetObject s (fun k => decide (k = ObjKind.Thread)) handle <;> simp
  · intro ht
    simp [CancelSynchronization, ht]
  · intro t ht
    refine ⟨by simp [CancelSynchronization, ht], ?_⟩
    intro hw
    simp [CancelSynchronization, ht, KThread.WaitCancel, hw]

open Svc in
theorem CancelSynchronization_result_witness :
    (KHandleTable.GetObject exampleState (fun k => decide (k = ObjKind.Thread)) ⟨0, 1⟩ = none ∧
      CancelSynchronization exampleState ⟨0, 1⟩
        = ⟨Result.ResultInvalidHandle, exampleState, [Call.GetObjectThread ⟨0, 1⟩]⟩) ∧
    (KHandleTable.GetObject exampleState (fun k => decide (k = ObjKind.Thread)) ⟨3, 1⟩ = some 12 ∧
      CancelSynchronization exampleState ⟨3, 1⟩
        = ⟨Result.ResultSuccess, KThread.WaitCancel 12 exampleState,
            [Call.GetObjectThread ⟨3, 1⟩, Call.WaitCancel 12]⟩ ∧
      exampleState.wait_state 12 ≠ ThreadWaitState.Waiting ∧
      (CancelSynchronization exampleState ⟨3, 1⟩).state = exampleState) :=
  ⟨⟨by rfl, (CancelSynchronization_result exampleState ⟨0, 1⟩).2.1 (by rfl)⟩,
    ⟨by rfl, ((CancelSynchronization_result exampleState ⟨3, 1⟩).2.2.1 12 (by rfl)).1,
      by decide, ((CancelSynchronization_result exampleState ⟨3, 1⟩).2.2.1 12 (by rfl)).2
        (by decide)⟩⟩

/-! ## Claims on `SynchronizePreemptionState` -/

open Svc in
/-- C9: when the current process's pinned thread for the current core is the
thread running on that core, `SynchronizePreemptionState` clears that thread's
interrupt flag and unpins that core's thread, once each, and changes no other
thread's flag and no other core's pinning; when they differ it makes neither
call and the kernel state after the call is the state before it.  In both cases
each action happens at most once, every call between taking and releasing the
scheduler lock is made with the lock held, and the lock's hold count after the
call equals its value before the call. -/
theorem SynchronizePreemptionState_unpins (s : KernelState) :
    (s.pinned_thread s.current_core = some s.current_thread →
      (SynchronizePreemptionState s).calls
        = [Call.SchedulerLock, Call.GetPinnedThread s.current_core,
            Call.ClearInterruptFlag s.current_thread, Call.UnpinCurrentThread s.current_core,
            Call.SchedulerUnlock] ∧
      (SynchronizePreemptionState s).state
        = KProcess.UnpinCurrentThread s.current_core
            (KThread.ClearInterruptFlag s.current_thread s) ∧
      (SynchronizePreemptionState s).state.interrupt_flag s.current_thread = false ∧
      (SynchronizePreemptionState s).state.pinned_thread s.current_core = none ∧
      (∀ t, t ≠ s.current_thread →
        (SynchronizePreemptionState s).state.interrupt_flag t = s.interrupt_flag t) ∧
      (∀ c, c ≠ s.current_core →
        (SynchronizePreemptionState s).state.pinned_thread c = s.pinned_thread c)) ∧
    (s.pinned_thread s.current_core ≠ some s.current_thread →
      (SynchronizePreemptionState s).calls
        = [Call.SchedulerLock, Call.GetPinnedThread s.current_core, Call.SchedulerUnlock] ∧
      (SynchronizePreemptionState s).state = s) ∧
    (∀ t, (SynchronizePreemptionState s).calls.count (Call.ClearInterruptFlag t) ≤ 1) ∧
    (∀ c, (SynchronizePreemptionState s).calls.count (Call.UnpinCurrentThread c) ≤ 1) ∧
    underSchedulerLock 0 (SynchronizePreemptionState s).calls = true ∧
    (SynchronizePreemptionState s).state.sched_lock_count = s.sched_lock_count := by
  by_cases hp : s.pinned_thread s.current_core = some s.current_thread
  · have hout : SynchronizePreemptionState s
        = ⟨KProcess.UnpinCurrentThread s.current_core
            (KThread.ClearInterruptFlag s.current_thread s),
          [Call.SchedulerLock, Call.GetPinnedThread s.current_core,
            Call.ClearInterruptFlag s.current_thread, Call.UnpinCurrentThread s.current_core,
            Call.SchedulerUnlock]⟩ := by
      simp [SynchronizePreemptionState, KScopedSchedulerLock.acquire, hp,
        KScopedSchedulerLock.release, KProcess.UnpinCurrentThread, KThread.ClearInterruptFlag]
    rw [hout]
    refine ⟨fun _ => ⟨rfl, rfl, ?_, ?_, ?_, ?_⟩, fun hne => absurd hp hne, ?_, ?_, ?_, rfl⟩
    · simp [KProcess.UnpinCurrentThread, KThread.ClearInterruptFlag]
    · simp [KProcess.UnpinCurrentThread, KThread.ClearInterruptFlag]
    · intro t ht
      simp [KProcess.UnpinCurrentThread, KThread.ClearInterruptFlag, ht]
    · intro c hc
      simp [KProcess.UnpinCurrentThread, KThread.ClearInterruptFlag, hc]
    · intro t
      by_cases ht : s.current_thread = t <;> simp [List.count_cons, ht]
    · intro c
      by_cases hc : s.current_core = c <;> simp [List.count_cons, hc]
    · simp [underSchedulerLock]
  · have hout : SynchronizePreemptionState s
        = ⟨s, [Call.SchedulerLock, Call.GetPinnedThread s.current_core,
            Call.SchedulerUnlock]⟩ := by
      simp [SynchronizePreemptionState, KScopedSchedulerLock.acquire, hp,
        KScopedSchedulerLock.release]
    rw [hout]
    refine ⟨fun h => absurd h hp, fun _ => ⟨rfl, rfl⟩, ?_, ?_, ?_, rfl⟩
    · intro t; simp [List.count_cons]
    · intro c; simp [List.count_cons]
    · simp [underSchedulerLock]

open Svc in
theorem SynchronizePreemptionState_unpins_witness :
    (exampleState.pinned_thread exampleState.current_core = some exampleState.current_thread ∧
      (SynchronizePreemptionState exampleState).calls
        = [Call.SchedulerLock, Call.GetPinnedThread exampleState.current_core,
            Call.ClearInterruptFlag exampleState.current_thread,
            Call.UnpinCurrentThread exampleState.current_core, Call.SchedulerUnlock] ∧
      (SynchronizePreemptionState exampleState).state.interrupt_flag exampleState.current_thread
        = false ∧
      (SynchronizePreemptionState exampleState).state.pinned_thread exampleState.current_core
        = none) ∧
    (otherPinnedState.pinned_thread otherPinnedState.current_core
        ≠ some otherPinnedState.current_thread ∧
      (SynchronizePreemptionState otherPinnedState).calls
        = [Call.SchedulerLock, Call.GetPinnedThread otherPinnedState.current_core,
            Call.SchedulerUnlock] ∧
      (SynchronizePreemptionState otherPinnedState).state = otherPinnedState) :=
  ⟨⟨by rfl, ((SynchronizePreemptionState_unpins exampleState).1 (by rfl)).1,
      ((SynchronizePreemptionState_unpins exampleState).1 (by rfl)).2.2.1,
      ((SynchronizePreemptionState_unpins exampleState).1 (by rfl)).2.2.2.1⟩,
    ⟨by decide, ((SynchronizePreemptionState_unpins otherPinnedState).2.1 (by decide)).1,
      ((SynchronizePreemptionState_unpins otherPinnedState).2.1 (by decide)).2⟩⟩

/-! ## Claims on `KPort` -/

theorem KPort.run_results_closed (p : KPort) (ops : List PortOp)
    (hp : p.state = KPort.State.ClientClosed ∨ p.state = KPort.State.ServerClosed) :
    ∀ r ∈ (KPort.run p ops).2, r = Result.ResultPortClosed := by
  induction ops generalizing p with
  | nil => intro r hr; simp [KPort.run] at hr
  | cons op rest ih =>
    have hstep : ((p.step op).1.state = KPort.State.ClientClosed ∨
        (p.step op).1.state = KPort.State.ServerClosed) ∧
        ∀ r, (p.step op).2 = some r → r = Result.ResultPortClosed := by
      cases op <;>
        rcases hp with hp | hp <;>
        simp [KPort.step, KPort.OnClientClosed, KPort.OnServerClosed, KPort.EnqueueSession,
          KPort.IsServerClosed, hp]
    intro r hr
    simp only [KPort.run, List.mem_append] at hr
    rcases hr with hr | hr
    · cases h2 : (p.step op).2 with
      | none => simp [h2] at hr
      | some res =>
        simp [h2] at hr
        rw [hr]
        exact hstep.2 res h2
    · exact ih _ hstep.1 r hr

theorem KPort.run_initialized (p : KPort) (ops : List PortOp)
    (hp : p.state ≠ KPort.State.Invalid) : (KPort.run p ops).1.state ≠ KPort.State.Invalid := by
  induction ops generalizing p with
  | nil => simpa [KPort.run] using hp
  | cons op rest ih =>
    simp only [KPort.run]
    apply ih
    cases op <;>
      simp only [KPort.step, KPort.OnClientClosed, KPort.OnServerClosed, KPort.EnqueueSession] <;>
      first
        | exact hp
        | (split <;> simp_all)

theorem KPort.run_state_closed (p : KPort) (ops : List PortOp)
    (hp : p.state = KPort.State.ClientClosed ∨ p.state = KPort.State.ServerClosed) :
    (KPort.run p ops).1.state = KPort.State.ClientClosed ∨
      (KPort.run p ops).1.state = KPort.State.ServerClosed := by
  induction ops generalizing p with
  | nil => simpa [KPort.run] using hp
  | cons op rest ih =>
    simp only [KPort.run]
    apply ih
    cases op <;>
      rcases hp with hp | hp <;>
      simp [KPort.step, KPort.OnClientClosed, KPort.OnServerClosed, KPort.EnqueueSession,
        KPort.IsServerClosed, hp]

theorem KPort.run_open (p : KPort) (ops : List PortOp) (hp : p.state = KPort.State.Normal)
    (hops : ∀ op ∈ ops, op ≠ PortOp.OnClientClosed ∧ op ≠ PortOp.OnServerClosed) :
    (KPort.run p ops).1.state = KPort.State.Normal ∧
      ∀ r ∈ (KPort.run p ops).2, r = Result.ResultSuccess := by
  induction ops generalizing p with
  | nil => simp [KPort.run, hp]
  | cons op rest ih =>
    have hrest : ∀ op' ∈ rest, op' ≠ PortOp.OnClientClosed ∧ op' ≠ PortOp.OnServerClosed :=
      fun op' h => hops op' (List.mem_cons_of_mem _ h)
    have hop := hops op (List.mem_cons_self _ _)
    have hstep : (p.step op).1.state = KPort.State.Normal ∧
        ∀ r, (p.step op).2 = some r → r = Result.ResultSuccess := by
      cases op with
      | OnClientClosed => exact absurd rfl hop.1
      | OnServerClosed => exact absurd rfl hop.2
      | IsServerClosed => simp [KPort.step, hp]
      | EnqueueSession session =>
        simp [KPort.step, KPort.EnqueueSession, KPort.IsServerClosed, hp]
    rcases ih _ hstep.1 hrest with ⟨hst, hres⟩
    refine ⟨by simpa [KPort.run] using hst, ?_⟩
    intro r hr
    simp only [KPort.run, List.mem_append] at hr
    rcases hr with hr | hr
    · cases h2 : (p.step op).2 with
      | none => simp [h2] at hr
      | some res =>
        simp [h2] at hr
        rw [hr]
        exact hstep.2 res h2
    · exact hres r hr

/-- C10, as stated, fails: on an initialized port, `OnClientClosed` followed by
`EnqueueSession` gives `ResultPortClosed` although `OnServerClosed` has not
been called and `IsServerClosed` is false; so it is not true that every
`EnqueueSession` issued before `OnServerClosed` succeeds. -/
theorem KPort_EnqueueSession_fails_after_client_closed :
    (freshPort.Initialize 4 false "port").state = KPort.State.Normal ∧
    PortOp.OnServerClosed ∉ [PortOp.OnClientClosed, PortOp.EnqueueSession 1] ∧
    (KPort.run (freshPort.Initialize 4 false "port")
      [PortOp.OnClientClosed, PortOp.EnqueueSession 1]).2 = [Result.ResultPortClosed] ∧
    (KPort.run (freshPort.Initialize 4 false "port")
      [PortOp.OnClientClosed, PortOp.EnqueueSession 1]).1.IsServerClosed = false ∧
    ¬ (∀ ops : List PortOp, PortOp.OnServerClosed ∉ ops →
      ∀ r ∈ (KPort.run (freshPort.Initialize 4 false "port") ops).2,
        r = Result.ResultSuccess) := by
  refine ⟨rfl, by decide, by rfl, by rfl, ?_⟩
  intro h
  have hr := h [PortOp.OnClientClosed, PortOp.EnqueueSession 1] (by decide)
    Result.ResultPortClosed (by
      have hrun : (KPort.run (freshPort.Initialize 4 false "port")
          [PortOp.OnClientClosed, PortOp.EnqueueSession 1]).2 = [Result.ResultPortClosed] := by
        rfl
      rw [hrun]
      exact List.mem_singleton.mpr rfl)
  exact absurd hr (by decide)

/-- C10, amended: `Initialize` takes a port from `Invalid` to `Normal`.  On a
port in state `Normal`, every `EnqueueSession` of a sequence of operations in
which neither `OnClientClosed` nor `OnServerClosed` occurs (any number of
`EnqueueSession` calls and `IsServerClosed` queries) succeeds, appends its
session to the pending queue and leaves the port `Normal`.  Once
`OnServerClosed` has been called on an initialized port, whatever operations
came before and whatever operations follow, every `EnqueueSession` fails with
`ResultPortClosed` and leaves the port as it was.  `IsServerClosed` changes no
port state. -/
theorem KPort_EnqueueSession_until_server_closed (p : KPort) (max_sessions : Int)
    (is_light : Bool) (name : String) (session : Nat) (sessions : List Nat)
    (ops before after : List PortOp) :
    (p.state = KPort.State.Invalid →
      (p.Initialize max_sessions is_light name).state = KPort.State.Normal) ∧
    (p.state = KPort.State.Normal →
      (p.EnqueueSession session).1 = Result.ResultSuccess ∧
      (p.EnqueueSession session).2.state = KPort.State.Normal ∧
      (p.EnqueueSession session).2.server.pending_sessions
        = p.server.pending_sessions ++ [session] ∧
      (KPort.run p (sessions.map PortOp.EnqueueSession)).2
        = List.replicate sessions.length Result.ResultSuccess ∧
      ((∀ op ∈ ops, op ≠ PortOp.OnClientClosed ∧ op ≠ PortOp.OnServerClosed) →
        (KPort.run p ops).1.state = KPort.State.Normal ∧
        ∀ r ∈ (KPort.run p ops).2, r = Result.ResultSuccess)) ∧
    (p.state ≠ KPort.State.Invalid →
      (∀ r ∈ (KPort.run (KPort.run p before).1.OnServerClosed after).2,
        r = Result.ResultPortClosed) ∧
      ((KPort.run (KPort.run p before).1.OnServerClosed after).1.EnqueueSession session
        = (Result.ResultPortClosed,
            (KPort.run (KPort.run p before).1.OnServerClosed after).1))) ∧
    ((p.step PortOp.IsServerClosed).1 = p ∧
      (p.state = KPort.State.Normal → (p.OnServerClosed).IsServerClosed = true)) := by
  have hclosed : ∀ q : KPort, q.state ≠ KPort.State.Invalid →
      q.OnServerClosed.state = KPort.State.ClientClosed ∨
        q.OnServerClosed.state = KPort.State.ServerClosed := by
    intro q hq
    unfold KPort.OnServerClosed
    cases hs : q.state <;> simp_all
  refine ⟨?_, ?_, ?_, ?_⟩
  · intro _
    rfl
  · intro hp
    refine ⟨by simp [KPort.EnqueueSession, KPort.IsServerClosed, hp],
      by simp [KPort.EnqueueSession, KPort.IsServerClosed, hp],
      by simp [KPort.EnqueueSession, KPort.IsServerClosed, hp], ?_,
      fun hops => KPort.run_open p ops hp hops⟩
    clear hclosed
    induction sessions generalizing p with
    | nil => simp [KPort.run]
    | cons x rest ih =>
      have hx : (p.EnqueueSession x).2.state = KPort.State.Normal := by
        simp [KPort.EnqueueSession, KPort.IsServerClosed, hp]
      have hr : (p.EnqueueSession x).1 = Result.ResultSuccess := by
        simp [KPort.EnqueueSession, KPort.IsServerClosed, hp]
      simp only [List.map_cons, KPort.run, KPort.step, List.length_cons, List.replicate_succ]
      rw [ih _ hx, hr]
      rfl
  · intro hp
    have hq := hclosed _ (KPort.run_initialized p before hp)
    have hfinal := KPort.run_state_closed _ after hq
    refine ⟨KPort.run_results_closed _ after hq, ?_⟩
    rcases hfinal with hf | hf <;> simp [KPort.EnqueueSession, KPort.IsServerClosed, hf]
  · refine ⟨rfl, ?_⟩
    intro hp
    simp [KPort.OnServerClosed, KPort.IsServerClosed, hp]

theorem KPort_EnqueueSession_until_server_closed_witness :
    (freshPort.state = KPort.State.Invalid ∧
      (freshPort.Initialize 4 false "port").state = KPort.State.Normal) ∧
    ((freshPort.Initialize 4 false "port").state = KPort.State.Normal ∧
      (KPort.run (freshPort.Initialize 4 false "port")
        ([1, 2, 3].map PortOp.EnqueueSession)).2
        = List.replicate ([1, 2, 3] : List Nat).length Result.ResultSuccess) ∧
    ((∀ op ∈ [PortOp.EnqueueSession 1, PortOp.IsServerClosed, PortOp.EnqueueSession 2],
        op ≠ PortOp.OnClientClosed ∧ op ≠ PortOp.OnServerClosed) ∧
      (KPort.run (freshPort.Initialize 4 false "port")
        [PortOp.EnqueueSession 1, PortOp.IsServerClosed, PortOp.EnqueueSession 2]).1.state
        = KPort.State.Normal ∧
      ∀ r ∈ (KPort.run (freshPort.Initialize 4 false "port")
          [PortOp.EnqueueSession 1, PortOp.IsServerClosed, PortOp.EnqueueSession 2]).2,
        r = Result.ResultSuccess) ∧
    ((freshPort.Initialize 4 false "port").state ≠ KPort.State.Invalid ∧
      ∀ r ∈ (KPort.run
          (KPort.run (freshPort.Initialize 4 false "port")
            [PortOp.EnqueueSession 1, PortOp.OnClientClosed]).1.OnServerClosed
          [PortOp.EnqueueSession 2, PortOp.IsServerClosed, PortOp.EnqueueSession 3]).2,
        r = Result.ResultPortClosed) :=
  ⟨⟨rfl,
      (KPort_EnqueueSession_until_server_closed freshPort 4 false "port" 0 [] [] [] []).1 rfl⟩,
    ⟨rfl,
      ((KPort_EnqueueSession_until_server_closed (freshPort.Initialize 4 false "port") 4 false
        "port" 0 [1, 2, 3] [] [] []).2.1 rfl).2.2.2.1⟩,
    ⟨by decide,
      ((KPort_EnqueueSession_until_server_closed (freshPort.Initialize 4 false "port") 4 false
        "port" 0 []
        [PortOp.EnqueueSession 1, PortOp.IsServerClosed, PortOp.EnqueueSession 2] [] []).2.1
          rfl).2.2.2.2 (by decide)⟩,
    ⟨by decide,
      ((KPort_EnqueueSession_until_server_closed (freshPort.Initialize 4 false "port") 4 false
        "port" 0 [] [] [PortOp.EnqueueSession 1, PortOp.OnClientClosed]
        [PortOp.EnqueueSession 2, PortOp.IsServerClosed, PortOp.EnqueueSession 3]).2.2.1
          (by decide)).1⟩⟩

end Kernel

namespace Service.Capture

/-! ## Lemmas on the `GetAlbumFileList` loops -/

theorem GetAlbumFileList_loop_eq (K : Constants) (GetSize : GetSizeFn) (storage : Nat)
    (files : AlbumFiles) (out_entries : List AlbumEntry) :
    GetAlbumFileList.loop K GetSize storage files out_entries
      = out_entries ++
          ((files.filter (onStorage storage)).take
            (K.SdAlbumFileLimit - out_entries.length)).map
            (fun f => (⟨GetSize f.2, f.1⟩ : AlbumEntry)) := by
  induction files generalizing out_entries with
  | nil => simp [GetAlbumFileList.loop]
  | cons file rest ih =>
    obtain ⟨file_id, path⟩ := file
    unfold GetAlbumFileList.loop
    by_cases hs : file_id.storage = storage
    · have hkeep : onStorage storage (file_id, path) = true := by simp [onStorage, hs]
      by_cases hfull : out_entries.length ≥ K.SdAlbumFileLimit
      · have hz : K.SdAlbumFileLimit - out_entries.length = 0 := by omega
        simp [hs, hfull, hz]
      · have hstep : K.SdAlbumFileLimit - out_entries.length
            = (K.SdAlbumFileLimit - (out_entries.length + 1)) + 1 := by omega
        simp only [hs, ne_eq, not_true_eq_false, if_false, hfull]
        rw [ih, List.filter_cons_of_pos hkeep, hstep, List.take_succ_cons]
        simp
    · have hdrop : ¬ onStorage storage (file_id, path) = true := by simp [onStorage, hs]
      simp only [ne_eq, hs, not_false_eq_true, if_true]
      rw [ih, List.filter_cons_of_neg hdrop]

theorem GetAlbumFileListApplication_loop_eq (K : Constants) (GetSize : GetSizeFn)
    (gt lt : DateCompare) (contex_type : Nat) (start_date end_date : AlbumFileDateTime)
    (files : AlbumFiles) (out_entries : List ApplicationAlbumFileEntry) :
    GetAlbumFileListApplication.loop K GetSize gt lt contex_type start_date end_date files
        out_entries
      = out_entries ++
          ((files.filter (inDateRange gt lt contex_type start_date end_date)).take
            (K.SdAlbumFileLimit - out_entries.length)).map
            (ApplicationAlbumFileEntry.ofFile GetSize contex_type) := by
  induction files generalizing out_entries with
  | nil => simp [GetAlbumFileListApplication.loop]
  | cons file rest ih =>
    obtain ⟨file_id, path⟩ := file
    unfold GetAlbumFileListApplication.loop
    by_cases hkeep : inDateRange gt lt contex_type start_date end_date (file_id, path) = true
    · have hk := hkeep
      simp only [inDateRange, Bool.and_eq_true, decide_eq_true_eq, Bool.not_eq_true'] at hk
      obtain ⟨⟨ht, hgt⟩, hlt⟩ := hk
      by_cases hfull : out_entries.length ≥ K.SdAlbumFileLimit
      · have hz : K.SdAlbumFileLimit - out_entries.length = 0 := by omega
        simp [ht, hgt, hlt, hfull, hz]
      · have hstep : K.SdAlbumFileLimit - out_entries.length
            = (K.SdAlbumFileLimit - (out_entries.length + 1)) + 1 := by omega
        simp only [ht, hgt, hlt, ne_eq, not_true_eq_false, if_false, hfull, Bool.false_eq_true]
        rw [ih, List.filter_cons_of_pos hkeep, hstep, List.take_succ_cons]
        simp
    · rw [List.filter_cons_of_neg hkeep]
      by_cases ht : file_id.type = contex_type
      · by_cases hgt : gt file_id.date start_date = true
        · simp only [ht, hgt, ne_eq, not_true_eq_false, if_false, if_true]
          exact ih out_entries
        · by_cases hlt : lt file_id.date end_date = true
          · simp only [ht, hgt, hlt, ne_eq, not_true_eq_false, if_false, if_true]
            exact ih out_entries
          · exfalso
            apply hkeep
            simp only [Bool.not_eq_true] at hgt hlt
            simp [inDateRange, ht, hgt, hlt]
      · simp only [ne_eq, ht, not_false_eq_true, if_true]
        exact ih out_entries

/-! ## Claims on `GetAlbumFileList` -/

/-- C11: on a mounted manager and with `out_entries` initially empty, the
application-facing `GetAlbumFileList` returns `ResultSuccess` and `out_entries`
holds, in `album_files` iteration order, one entry for each of the first
`SdAlbumFileLimit` files that are not skipped; a file is not skipped exactly
when its type is the requested content type, its date is not `>` `start_date`
and not `<` `end_date` (that is, `end_date <= date <= start_date` when `>` and
`<` are the strict comparisons of an order `le`); every entry carries the date
and storage of its file.  On a manager that is not mounted it returns
`ResultIsNotMounted` and leaves `out_entries` as it was. -/
theorem GetAlbumFileList_application_range (K : Constants) (GetSize : GetSizeFn)
    (gt lt le : DateCompare) (m : AlbumManager) (contex_type : Nat)
    (start_date end_date : AlbumFileDateTime) (aruid : Nat) :
    (m.is_mounted = true →
      (m.GetAlbumFileListApplication K GetSize gt lt [] contex_type start_date end_date aruid).1
        = Result.ResultSuccess ∧
      (m.GetAlbumFileListApplication K GetSize gt lt [] contex_type start_date end_date aruid).2
        = ((m.album_files.filter (inDateRange gt lt contex_type start_date end_date)).take
            K.SdAlbumFileLimit).map (ApplicationAlbumFileEntry.ofFile GetSize contex_type) ∧
      (m.GetAlbumFileListApplication K GetSize gt lt [] contex_type start_date
        end_date aruid).2.length ≤ K.SdAlbumFileLimit ∧
      (∀ e ∈ (m.GetAlbumFileListApplication K GetSize gt lt [] contex_type start_date
          end_date aruid).2,
        ∃ file ∈ m.album_files, file.1.type = contex_type ∧
          gt file.1.date start_date = false ∧ lt file.1.date end_date = false ∧
          e.datetime = file.1.date ∧ e.entry.datetime = file.1.date ∧
          e.entry.storage = file.1.storage)) ∧
    (∀ file : AlbumFileId × Path,
      inDateRange gt lt contex_type start_date end_date file = true ↔
        file.1.type = contex_type ∧ gt file.1.date start_date = false ∧
          lt file.1.date end_date = false) ∧
    ((∀ a b, gt a b = !le a b) → (∀ a b, lt a b = !le b a) →
      ∀ file : AlbumFileId × Path,
        inDateRange gt lt contex_type start_date end_date file = true ↔
          file.1.type = contex_type ∧ le end_date file.1.date = true ∧
            le file.1.date start_date = true) ∧
    (m.is_mounted = false →
      ∀ out_entries, m.GetAlbumFileListApplication K GetSize gt lt out_entries contex_type
        start_date end_date aruid = (Result.ResultIsNotMounted, out_entries)) := by
  have hrange : ∀ file : AlbumFileId × Path,
      inDateRange gt lt contex_type start_date end_date file = true ↔
        file.1.type = contex_type ∧ gt file.1.date start_date = false ∧
          lt file.1.date end_date = false := by
    intro file
    simp [inDateRange, and_assoc]
  refine ⟨?_, hrange, ?_, ?_⟩
  · intro hm
    have hout : (m.GetAlbumFileListApplication K GetSize gt lt [] contex_type start_date
        end_date aruid).2
        = ((m.album_files.filter (inDateRange gt lt contex_type start_date end_date)).take
            K.SdAlbumFileLimit).map (ApplicationAlbumFileEntry.ofFile GetSize contex_type) := by
      simp [AlbumManager.GetAlbumFileListApplication, hm, GetAlbumFileListApplication_loop_eq]
    refine ⟨by simp [AlbumManager.GetAlbumFileListApplication, hm], hout, ?_, ?_⟩
    · rw [hout, List.length_map, List.length_take]
      exact Nat.min_le_left _ _
    · intro e he
      rw [hout] at he
      rcases List.mem_map.mp he with ⟨file, hfile, rfl⟩
      have hf := List.mem_filter.mp (List.mem_of_mem_take hfile)
      have hr := (hrange file).mp hf.2
      exact ⟨file, hf.1, hr.1, hr.2.1, hr.2.2, rfl, rfl, rfl⟩
  · intro hgt hlt file
    rw [hrange file, hgt, hlt]
    simp only [Bool.not_eq_false']
    constructor
    · rintro ⟨h1, h2, h3⟩
      exact ⟨h1, h3, h2⟩
    · rintro ⟨h1, h2, h3⟩
      exact ⟨h1, h3, h2⟩
  · intro hm out_entries
    simp [AlbumManager.GetAlbumFileListApplication, hm]

theorem GetAlbumFileList_application_range_witness :
    (exampleManager.is_mounted = true ∧
      (exampleManager.GetAlbumFileListApplication exampleConstants exampleGetSize chronoGt
        chronoLt [] 0 (exampleDate 8 1) (exampleDate 4 1) 0).1 = Result.ResultSuccess ∧
      ((exampleManager.GetAlbumFileListApplication exampleConstants exampleGetSize chronoGt
        chronoLt [] 0 (exampleDate 8 1) (exampleDate 4 1) 0).2.map (fun e => e.datetime.month))
        = [5, 6]) ∧
    (((∀ a b, chronoGt a b = !chronoLe a b) ∧ (∀ a b, chronoLt a b = !chronoLe b a)) ∧
      (inDateRange chronoGt chronoLt 0 (exampleDate 8 1) (exampleDate 4 1)
          (exampleFileId 5 1, "b.png") = true ↔
        (exampleFileId 5 1).type = 0 ∧ chronoLe (exampleDate 4 1) (exampleFileId 5 1).date = true ∧
          chronoLe (exampleFileId 5 1).date (exampleDate 8 1) = true)) ∧
    (({ exampleManager with is_mounted := false } : AlbumManager).is_mounted = false ∧
      ({ exampleManager with is_mounted := false } : AlbumManager).GetAlbumFileListApplication
          exampleConstants exampleGetSize chronoGt chronoLt [] 0 (exampleDate 8 1)
          (exampleDate 4 1) 0
        = (Result.ResultIsNotMounted, [])) := by
  have hgt : ∀ a b, chronoGt a b = !chronoLe a b := by
    intro a b
    simp only [chronoGt, chronoLe]
    by_cases h : chronoKey b < chronoKey a
    · simp [h]
    · simp [h, Nat.le_of_not_lt h]
  have hlt : ∀ a b, chronoLt a b = !chronoLe b a := by
    intro a b
    simp only [chronoLt, chronoLe]
    by_cases h : chronoKey a < chronoKey b
    · simp [h]
    · simp [h, Nat.le_of_not_lt h]
  refine ⟨⟨rfl, ?_, ?_⟩, ⟨⟨hgt, hlt⟩, ?_⟩, ⟨rfl, ?_⟩⟩
  · exact ((GetAlbumFileList_application_range exampleConstants exampleGetSize chronoGt chronoLt
      chronoLe exampleManager 0 (exampleDate 8 1) (exampleDate 4 1) 0).1 rfl).1
  · rw [((GetAlbumFileList_application_range exampleConstants exampleGetSize chronoGt chronoLt
      chronoLe exampleManager 0 (exampleDate 8 1) (exampleDate 4 1) 0).1 rfl).2.1]
    decide
  · exact (GetAlbumFileList_application_range exampleConstants exampleGetSize chronoGt chronoLt
      chronoLe exampleManager 0 (exampleDate 8 1) (exampleDate 4 1) 0).2.2.1 hgt hlt
      (exampleFileId 5 1, "b.png")
  · exact (GetAlbumFileList_application_range exampleConstants exampleGetSize chronoGt chronoLt
      chronoLe { exampleManager with is_mounted := false } 0 (exampleDate 8 1) (exampleDate 4 1)
      0).2.2.2 rfl []

/-- C12: the storage-facing `GetAlbumFileList` returns `ResultInvalidStorage`
when `storage > Sd`, whatever the mount state, otherwise `ResultIsNotMounted`
when the manager is not mounted, in both cases leaving `out_entries` as it
was.  Otherwise it returns `ResultSuccess` and appends to `out_entries`, in
`album_files` iteration order, one entry for each of the first
`SdAlbumFileLimit - size` files on the requested storage: every appended
entry's `file_id.storage` is the requested storage, the final size is at most
`max (initial size) SdAlbumFileLimit`, and with `out_entries` initially empty
the result is the first `min SdAlbumFileLimit n` of the `n` matching files. -/
theorem GetAlbumFileList_storage (K : Constants) (GetSize : GetSizeFn) (m : AlbumManager)
    (out_entries : List AlbumEntry) (storage flags : Nat) :
    (storage > K.Sd →
      m.GetAlbumFileList K GetSize out_entries storage flags
        = (Result.ResultInvalidStorage, out_entries)) ∧
    (storage ≤ K.Sd → m.is_mounted = false →
      m.GetAlbumFileList K GetSize out_entries storage flags
        = (Result.ResultIsNotMounted, out_entries)) ∧
    (storage ≤ K.Sd → m.is_mounted = true →
      (m.GetAlbumFileList K GetSize out_entries storage flags).1 = Result.ResultSuccess ∧
      (∃ appended,
        (m.GetAlbumFileList K GetSize out_entries storage flags).2 = out_entries ++ appended ∧
        appended = ((m.album_files.filter (onStorage storage)).take
            (K.SdAlbumFileLimit - out_entries.length)).map
            (fun f => (⟨GetSize f.2, f.1⟩ : AlbumEntry)) ∧
        (∀ e ∈ appended, e.file_id.storage = storage) ∧
        (appended.map (fun e => e.file_id)).Sublist (m.album_files.map (fun f => f.1))) ∧
      (m.GetAlbumFileList K GetSize out_entries storage flags).2.length
        ≤ max out_entries.length K.SdAlbumFileLimit ∧
      (out_entries = [] →
        (m.GetAlbumFileList K GetSize out_entries storage flags).2
          = ((m.album_files.filter (onStorage storage)).take K.SdAlbumFileLimit).map
              (fun f => (⟨GetSize f.2, f.1⟩ : AlbumEntry)) ∧
        (m.GetAlbumFileList K GetSize out_entries storage flags).2.length
          = min K.SdAlbumFileLimit (m.album_files.filter (onStorage storage)).length)) := by
  refine ⟨?_, ?_, ?_⟩
  · intro hs
    simp [AlbumManager.GetAlbumFileList, hs]
  · intro hs hm
    have hs' : ¬ storage > K.Sd := by omega
    simp [AlbumManager.GetAlbumFileList, hs', hm]
  · intro hs hm
    have hs' : ¬ storage > K.Sd := by omega
    have hout : (m.GetAlbumFileList K GetSize out_entries storage flags).2
        = out_entries ++ ((m.album_files.filter (onStorage storage)).take
            (K.SdAlbumFileLimit - out_entries.length)).map
            (fun f => (⟨GetSize f.2, f.1⟩ : AlbumEntry)) := by
      simp [AlbumManager.GetAlbumFileList, hs', hm, GetAlbumFileList_loop_eq]
    refine ⟨by simp [AlbumManager.GetAlbumFileList, hs', hm], ⟨_, hout, rfl, ?_, ?_⟩, ?_, ?_⟩
    · intro e he
      rcases List.mem_map.mp he with ⟨file, hfile, rfl⟩
      have hf := List.mem_filter.mp (List.mem_of_mem_take hfile)
      simpa [onStorage] using hf.2
    · rw [List.map_map]
      have h1 : ((m.album_files.filter (onStorage storage)).take
          (K.SdAlbumFileLimit - out_entries.length)).Sublist m.album_files :=
        (List.take_sublist _ _).trans (List.filter_sublist _)
      have h2 := h1.map (fun f : AlbumFileId × Path => f.1)
      simpa [Function.comp_def] using h2
    · rw [hout, List.length_append, List.length_map, List.length_take]
      omega
    · intro hnil
      subst hnil
      constructor
      · simpa using hout
      · rw [hout]
        simp

theorem GetAlbumFileList_storage_witness :
    (((2 : Nat) > exampleConstants.Sd) ∧
      exampleManager.GetAlbumFileList exampleConstants exampleGetSize [] 2 0
        = (Result.ResultInvalidStorage, [])) ∧
    (((1 : Nat) ≤ exampleConstants.Sd ∧
        ({ exampleManager with is_mounted := false } : AlbumManager).is_mounted = false) ∧
      ({ exampleManager with is_mounted := false } : AlbumManager).GetAlbumFileList
          exampleConstants exampleGetSize [] 1 0
        = (Result.ResultIsNotMounted, [])) ∧
    (((1 : Nat) ≤ exampleConstants.Sd ∧ exampleManager.is_mounted = true ∧
        ([] : List AlbumEntry) = []) ∧
      (exampleManager.GetAlbumFileList exampleConstants exampleGetSize [] 1 0).1
        = Result.ResultSuccess ∧
      (exampleManager.GetAlbumFileList exampleConstants exampleGetSize [] 1 0).2.length
        = min exampleConstants.SdAlbumFileLimit
            (exampleManager.album_files.filter (onStorage 1)).length ∧
      ((exampleManager.GetAlbumFileList exampleConstants exampleGetSize [] 1 0).2.map
        (fun e => e.file_id.date.month)) = [3, 5]) := by
  refine ⟨⟨by decide, ?_⟩, ⟨⟨by decide, rfl⟩, ?_⟩, ⟨⟨by decide, rfl, rfl⟩, ?_, ?_, ?_⟩⟩
  · exact (GetAlbumFileList_storage exampleConstants exampleGetSize exampleManager [] 2 0).1
      (by decide)
  · exact (GetAlbumFileList_storage exampleConstants exampleGetSize
      { exampleManager with is_mounted := false } [] 1 0).2.1 (by decide) rfl
  · exact ((GetAlbumFileList_storage exampleConstants exampleGetSize exampleManager [] 1 0).2.2
      (by decide) rfl).1
  · exact (((GetAlbumFileList_storage exampleConstants exampleGetSize exampleManager [] 1 0).2.2
      (by decide) rfl).2.2.2 rfl).2
  · rw [(((GetAlbumFileList_storage exampleConstants exampleGetSize exampleManager [] 1 0).2.2
      (by decide) rfl).2.2.2 rfl).1]
    decide

/-! ## Claims on `LoadAlbumScreenShotImage` and `LoadAlbumScreenShotThumbnail` -/

theorem resize_length (v : List Nat) (n : Nat) : (resize v n).length = n := by
  simp only [resize, List.length_append, List.length_take, List.length_replicate]
  omega

theorem writeInto_length (out_image data : List Nat) :
    (writeInto out_image data).length = out_image.length := by
  simp only [writeInto, List.length_take, List.length_append, List.length_drop]
  omega

theorem LoadImage_size_ok (K : Constants) (load : FileLoadFn) (out_image : List Nat)
    (path : Path) (width height wh size : Int) (flag : ScreenShotDecoderFlag)
    (h1 : checkedInt (width * height) = some wh)
    (h2 : checkedInt (wh * K.STBI_rgb_alpha) = some size)
    (h3 : out_image.length = castToSize size) :
    ∃ r, AlbumManager.LoadImage K load out_image path width height flag = some r ∧
      r.exit ≠ LoadImageExit.SizeMismatch ∧ r.out_image.length = out_image.length := by
  unfold AlbumManager.LoadImage
  simp only [h1, h2, h3, ne_eq, not_true_eq_false, if_false]
  cases load path with
  | ShortRead => exact ⟨_, rfl, by simp, by simp [h3]⟩
  | NotAnImage => exact ⟨_, rfl, by simp, by simp [h3]⟩
  | Image resized =>
    refine ⟨_, rfl, by simp, ?_⟩
    simp only [writeInto_length]
    exact h3

theorem GetFile_found (m : AlbumManager) (out_path path : Path) (file_id : AlbumFileId)
    (h : m.album_files.find file_id = some path) :
    m.GetFile out_path file_id = (Result.ResultSuccess, path) := by
  simp [AlbumManager.GetFile, h]

/-- C13: for a file id whose storage is valid, on a mounted manager where
`GetFile` finds the file, and with four channels (`STBI_rgb_alpha = 4`),
`LoadAlbumScreenShotImage` sets the output to 1280x720 and passes `LoadImage` a
buffer of exactly 1280 * 720 * 4 = 3686400 bytes, and
`LoadAlbumScreenShotThumbnail` sets 320x180 and passes exactly 320 * 180 * 4 =
230400 bytes; in both, `width * height * 4` as computed in `LoadImage` fits a
32-bit signed `int` and equals the size of the buffer, so both calls return,
`LoadImage` is entered and does not leave through its size-mismatch branch, and
the buffer still has that size afterwards. -/
theorem LoadAlbumScreenShot_buffer_size (K : Constants) (load : FileLoadFn) (m : AlbumManager)
    (out_image_output : LoadAlbumScreenShotImageOutput) (out_image : List Nat)
    (file_id : AlbumFileId) (flags : ScreenShotDecoderFlag) (path : Path)
    (hchannels : K.STBI_rgb_alpha = 4) (hstorage : file_id.storage ≤ K.Sd)
    (hmounted : m.is_mounted = true)
    (hfound : m.GetFile "" file_id = (Result.ResultSuccess, path)) :
    (∃ out, m.LoadAlbumScreenShotImage K load out_image_output out_image file_id flags = some out ∧
      out.out_image_output = ⟨1280, 720⟩ ∧
      (resize out_image 3686400).length = 1280 * 720 * 4 ∧
      AlbumManager.LoadImage K load (resize out_image 3686400) path 1280 720 flags
        = some ⟨out.result, out.out_image, out.exit.getD LoadImageExit.SizeMismatch⟩ ∧
      out.exit ≠ none ∧ out.exit ≠ some LoadImageExit.SizeMismatch ∧
      out.out_image.length = 3686400) ∧
    (∃ out, m.LoadAlbumScreenShotThumbnail K load out_image_output out_image file_id flags
        = some out ∧
      out.out_image_output = ⟨320, 180⟩ ∧
      (resize out_image 230400).length = 320 * 180 * 4 ∧
      AlbumManager.LoadImage K load (resize out_image 230400) path 320 180 flags
        = some ⟨out.result, out.out_image, out.exit.getD LoadImageExit.SizeMismatch⟩ ∧
      out.exit ≠ none ∧ out.exit ≠ some LoadImageExit.SizeMismatch ∧
      out.out_image.length = 230400) ∧
    (checkedInt ((1280 : Int) * 720) = some 921600 ∧
      checkedInt ((921600 : Int) * K.STBI_rgb_alpha) = some 3686400 ∧
      castToSize 3686400 = 3686400) ∧
    (checkedInt ((320 : Int) * 180) = some 57600 ∧
      checkedInt ((57600 : Int) * K.STBI_rgb_alpha) = some 230400 ∧
      castToSize 230400 = 230400) := by
  have hs : ¬ file_id.storage > K.Sd := by omega
  have hA1 : checkedInt ((1280 : Int) * 720) = some 921600 := by decide
  have hA2 : checkedInt ((921600 : Int) * K.STBI_rgb_alpha) = some 3686400 := by
    rw [hchannels]; decide
  have hA3 : castToSize 3686400 = 3686400 := by decide
  have hB1 : checkedInt ((320 : Int) * 180) = some 57600 := by decide
  have hB2 : checkedInt ((57600 : Int) * K.STBI_rgb_alpha) = some 230400 := by
    rw [hchannels]; decide
  have hB3 : castToSize 230400 = 230400 := by decide
  have hc1 : castToInt 1280 = 1280 := by decide
  have hc2 : castToInt 720 = 720 := by decide
  have hc3 : castToInt 320 = 320 := by decide
  have hc4 : castToInt 180 = 180 := by decide
  refine ⟨?_, ?_, ⟨hA1, hA2, hA3⟩, ⟨hB1, hB2, hB3⟩⟩
  · obtain ⟨r, hr, hexit, hlen⟩ := LoadImage_size_ok K load (resize out_image 3686400) path
      1280 720 921600 3686400 flags hA1 hA2 (by rw [resize_length, hA3])
    refine ⟨⟨r.result, ⟨1280, 720⟩, r.out_image, some r.exit⟩, ?_, rfl, ?_, ?_, ?_, ?_, ?_⟩
    · simp [AlbumManager.LoadAlbumScreenShotImage, hs, hmounted, hfound, Result.IsError,
        hchannels, hc1, hc2, hr]
    · rw [resize_length]
    · simpa using hr
    · simp
    · simpa using hexit
    · simpa [resize_length] using hlen
  · obtain ⟨r, hr, hexit, hlen⟩ := LoadImage_size_ok K load (resize out_image 230400) path
      320 180 57600 230400 flags hB1 hB2 (by rw [resize_length, hB3])
    refine ⟨⟨r.result, ⟨320, 180⟩, r.out_image, some r.exit⟩, ?_, rfl, ?_, ?_, ?_, ?_, ?_⟩
    · simp [AlbumManager.LoadAlbumScreenShotThumbnail, hs, hmounted, hfound, Result.IsError,
        hchannels, hc3, hc4, hr]
    · rw [resize_length]
    · simpa using hr
    · simp
    · simpa using hexit
    · simpa [resize_length] using hlen

/-! ## Lemmas on the map `album_files` -/

theorem AlbumFiles.length_assign (key : AlbumFileId) (path : Path) (files : AlbumFiles) :
    (AlbumFiles.assign key path files).length = files.length := by
  induction files with
  | nil => rfl
  | cons kv rest ih =>
    obtain ⟨k, v⟩ := kv
    unfold AlbumFiles.assign
    by_cases hk : k = key <;> simp [hk, ih]

theorem AlbumFiles.find_assign_self (key : AlbumFileId) (path : Path) (files : AlbumFiles)
    (h : files.contains key = true) :
    (AlbumFiles.assign key path files).find key = some path := by
  induction files with
  | nil => simp [AlbumFiles.contains, AlbumFiles.find] at h
  | cons kv rest ih =>
    obtain ⟨k, v⟩ := kv
    unfold AlbumFiles.assign
    by_cases hk : k = key
    · simp [hk, AlbumFiles.find]
    · have hrest : AlbumFiles.contains rest key = true := by
        simpa [AlbumFiles.contains, AlbumFiles.find, hk] using h
      simp [hk, AlbumFiles.find, ih hrest]

theorem AlbumFiles.find_assign_other (key other : AlbumFileId) (path : Path)
    (files : AlbumFiles) (h : other ≠ key) :
    (AlbumFiles.assign key path files).find other = files.find other := by
  induction files with
  | nil => rfl
  | cons kv rest ih =>
    obtain ⟨k, v⟩ := kv
    unfold AlbumFiles.assign
    by_cases hk : k = key
    · have hko : ¬ k = other := fun e => h (e.symm.trans hk)
      rw [if_pos hk]
      simp only [AlbumFiles.find]
      rw [if_neg hko, if_neg hko]
    · rw [if_neg hk]
      simp only [AlbumFiles.find]
      by_cases hko : k = other
      · rw [if_pos hko, if_pos hko]
      · rw [if_neg hko, if_neg hko]
        exact ih

theorem AlbumFiles.length_insertNew (keyLt : AlbumFileId → AlbumFileId → Bool)
    (key : AlbumFileId) (path : Path) (files : AlbumFiles) :
    (AlbumFiles.insertNew keyLt key path files).length = files.length + 1 := by
  induction files with
  | nil => rfl
  | cons kv rest ih =>
    obtain ⟨k, v⟩ := kv
    unfold AlbumFiles.insertNew
    by_cases hlt : keyLt key k = true <;> simp [hlt, ih]

theorem AlbumFiles.find_insertNew_self (keyLt : AlbumFileId → AlbumFileId → Bool)
    (key : AlbumFileId) (path : Path) (files : AlbumFiles) (h : files.contains key = false) :
    (AlbumFiles.insertNew keyLt key path files).find key = some path := by
  induction files with
  | nil => simp [AlbumFiles.insertNew, AlbumFiles.find]
  | cons kv rest ih =>
    obtain ⟨k, v⟩ := kv
    have hk : ¬ k = key := by
      intro e
      simp [AlbumFiles.contains, AlbumFiles.find, e] at h
    have hrest : AlbumFiles.contains rest key = false := by
      simpa [AlbumFiles.contains, AlbumFiles.find, hk] using h
    unfold AlbumFiles.insertNew
    by_cases hlt : keyLt key k = true
    · simp [hlt, AlbumFiles.find]
    · simp [hlt, AlbumFiles.find, hk, ih hrest]

theorem AlbumFiles.find_insertNew_other (keyLt : AlbumFileId → AlbumFileId → Bool)
    (key other : AlbumFileId) (path : Path) (files : AlbumFiles) (h : other ≠ key) :
    (AlbumFiles.insertNew keyLt key path files).find other = files.find other := by
  have hne : ¬ key = other := fun e => h e.symm
  induction files with
  | nil => simp [AlbumFiles.insertNew, AlbumFiles.find, hne]
  | cons kv rest ih =>
    obtain ⟨k, v⟩ := kv
    unfold AlbumFiles.insertNew
    by_cases hlt : keyLt key k = true
    · rw [if_pos hlt]
      simp only [AlbumFiles.find]
      rw [if_neg hne]
    · rw [if_neg hlt]
      simp only [AlbumFiles.find]
      by_cases hko : k = other
      · rw [if_pos hko, if_pos hko]
      · rw [if_neg hko, if_neg hko]
        exact ih

/-- Assigning through `album_files[key]` stores the path under `key`, keeps
every other mapping, and grows the map by one exactly when `key` was absent. -/
theorem AlbumFiles.set_spec (keyLt : AlbumFileId → AlbumFileId → Bool) (files : AlbumFiles)
    (key : AlbumFileId) (path : Path) :
    (files.set keyLt key path).find key = some path ∧
    (∀ other, other ≠ key → (files.set keyLt key path).find other = files.find other) ∧
    (files.set keyLt key path).length
      = if files.contains key then files.length else files.length + 1 := by
  unfold AlbumFiles.set
  cases hc : files.contains key with
  | true =>
    simp only [if_true]
    exact ⟨AlbumFiles.find_assign_self key path files hc,
      fun other ho => AlbumFiles.find_assign_other key other path files ho,
      AlbumFiles.length_assign key path files⟩
  | false =>
    simp only [Bool.false_eq_true, if_false]
    exact ⟨AlbumFiles.find_insertNew_self keyLt key path files hc,
      fun other ho => AlbumFiles.find_insertNew_other keyLt key other path files ho,
      AlbumFiles.length_insertNew keyLt key path files⟩

/-! ## Lemmas on the `unique_id` loop -/

theorem withUniqueId_withUniqueId (file_id : AlbumFileId) (a b : Nat) :
    (file_id.withUniqueId a).withUniqueId b = file_id.withUniqueId b := rfl

theorem withUniqueId_unique_id (file_id : AlbumFileId) (a : Nat) :
    (file_id.withUniqueId a).date.unique_id = a := rfl

theorem withUniqueId_self (file_id : AlbumFileId) :
    file_id.withUniqueId file_id.date.unique_id = file_id := rfl

/-- From a counter value `u` with `n` values left before the wrap, the loop
ends within `n` evaluations of its condition: at the least free value from `u`
on, or at 0 when every value from `u` on is taken. -/
theorem uniqueLoop_spec (K : Constants) (album_files : AlbumFiles) (base : AlbumFileId)
    (n : Nat) : ∀ (u fuel : Nat), u + n = 2 ^ K.unique_id_bits → 1 ≤ n → n ≤ fuel →
      ∃ r, FindScreenshots.uniqueLoop K album_files fuel (base.withUniqueId u)
          = some (base.withUniqueId r) ∧
        ((u ≤ r ∧ r < 2 ^ K.unique_id_bits ∧
            album_files.contains (base.withUniqueId r) = false ∧
            ∀ j, u ≤ j → j < r → album_files.contains (base.withUniqueId j) = true) ∨
          (r = 0 ∧
            ∀ j, u ≤ j → j < 2 ^ K.unique_id_bits →
              album_files.contains (base.withUniqueId j) = true)) := by
  induction n with
  | zero => intro u fuel _ h1; omega
  | succ n ih =>
    intro u fuel hsum _ hfuel
    obtain ⟨f, rfl⟩ : ∃ f, fuel = f + 1 := ⟨fuel - 1, by omega⟩
    unfold FindScreenshots.uniqueLoop
    by_cases hc : album_files.contains (base.withUniqueId u) = true
    · simp only [hc, if_true, withUniqueId_unique_id, withUniqueId_withUniqueId]
      by_cases hlast : n = 0
      · have hwrap : (u + 1) % 2 ^ K.unique_id_bits = 0 := by
          have : u + 1 = 2 ^ K.unique_id_bits := by omega
          rw [this, Nat.mod_self]
        refine ⟨0, by simp [hwrap], Or.inr ⟨rfl, ?_⟩⟩
        intro j hj1 hj2
        have : j = u := by omega
        rw [this]
        exact hc
      · have hlt : u + 1 < 2 ^ K.unique_id_bits := by omega
        have hmod : (u + 1) % 2 ^ K.unique_id_bits = u + 1 := Nat.mod_eq_of_lt hlt
        rcases ih (u + 1) f (by omega) (by omega) (by omega) with ⟨r, hr, hcase⟩
        refine ⟨r, by simp [hmod, hr], ?_⟩
        rcases hcase with ⟨h1, h2, h3, h4⟩ | ⟨h1, h2⟩
        · refine Or.inl ⟨by omega, h2, h3, ?_⟩
          intro j hj1 hj2
          by_cases hju : j = u
          · rw [hju]; exact hc
          · exact h4 j (by omega) hj2
        · refine Or.inr ⟨h1, ?_⟩
          intro j hj1 hj2
          by_cases hju : j = u
          · rw [hju]; exact hc
          · exact h2 j (by omega) hj2
    · have hc' : album_files.contains (base.withUniqueId u) = false := by
        simpa using hc
      refine ⟨u, by simp [hc'], Or.inl ⟨le_refl _, by omega, hc', ?_⟩⟩
      intro j hj1 hj2
      omega

/-! ## Claims on `FindScreenshots` -/

theorem GetAlbumEntry_success (K : Constants) (parse : ParseFn) (out_entry entry : AlbumEntry)
    (path : Path)
    (h : AlbumManager.GetAlbumEntry K parse out_entry path = (Result.ResultSuccess, entry)) :
    entry.file_id.date.unique_id = 0 ∧
      ∀ other, AlbumManager.GetAlbumEntry K parse other path = (Result.ResultSuccess, entry) := by
  unfold AlbumManager.GetAlbumEntry at h ⊢
  cases hp : parse path with
  | none => simp [hp] at h
  | some p =>
    simp only [hp, Prod.mk.injEq, true_and] at h ⊢
    subst h
    exact ⟨rfl, fun _ => rfl⟩

/-- C14: for every map `album_files` and every successfully parsed entry
(whose `unique_id` starts at 0), the duplicate-avoidance loop of
`FindScreenshots` ends within `2 ^ unique_id_bits` evaluations of its
condition, with the entry's `unique_id` at some value `u` such that every
smaller value is taken for that file id.  Either the file id with `u` is not a
key of the map, and the insertion grows the map by exactly one; or `u` has
wrapped to 0 because every value of `unique_id` is taken for that file id, and
the insertion leaves the size of the map unchanged.  In both cases the file id
with `u` maps to the new path afterwards and the mapping of every other key is
as before. -/
theorem FindScreenshots_unique_id (K : Constants) (parse : ParseFn)
    (keyLt : AlbumFileId → AlbumFileId → Bool) (album_files : AlbumFiles) (full_path : Path)
    (out_entry entry : AlbumEntry) (fuel : Nat)
    (hparse : AlbumManager.GetAlbumEntry K parse out_entry full_path
      = (Result.ResultSuccess, entry))
    (hfuel : 2 ^ K.unique_id_bits ≤ fuel) :
    entry.file_id.date.unique_id = 0 ∧
    ∃ u, u < 2 ^ K.unique_id_bits ∧
      FindScreenshots.uniqueLoop K album_files fuel entry.file_id
        = some (entry.file_id.withUniqueId u) ∧
      FindScreenshots.visit K parse keyLt fuel album_files full_path
        = some (album_files.set keyLt (entry.file_id.withUniqueId u) full_path) ∧
      (∀ j, j < u → album_files.contains (entry.file_id.withUniqueId j) = true) ∧
      ((album_files.contains (entry.file_id.withUniqueId u) = false ∧
          (album_files.set keyLt (entry.file_id.withUniqueId u) full_path).length
            = album_files.length + 1) ∨
        (u = 0 ∧
          (∀ j, j < 2 ^ K.unique_id_bits →
            album_files.contains (entry.file_id.withUniqueId j) = true) ∧
          (album_files.set keyLt (entry.file_id.withUniqueId u) full_path).length
            = album_files.length)) ∧
      (album_files.set keyLt (entry.file_id.withUniqueId u) full_path).find
          (entry.file_id.withUniqueId u) = some full_path ∧
      (∀ other, other ≠ entry.file_id.withUniqueId u →
        (album_files.set keyLt (entry.file_id.withUniqueId u) full_path).find other
          = album_files.find other) := by
  obtain ⟨hzero, hany⟩ := GetAlbumEntry_success K parse out_entry entry full_path hparse
  have hpos : 1 ≤ 2 ^ K.unique_id_bits := Nat.one_le_two_pow
  have hstart : entry.file_id = entry.file_id.withUniqueId 0 := by
    rw [← hzero]
    exact (withUniqueId_self entry.file_id).symm
  obtain ⟨r, hloop, hcase⟩ := uniqueLoop_spec K album_files entry.file_id
    (2 ^ K.unique_id_bits) 0 fuel (by omega) hpos hfuel
  rw [← hstart] at hloop
  obtain ⟨hfind, hother, hlen⟩ :=
    AlbumFiles.set_spec keyLt album_files (entry.file_id.withUniqueId r) full_path
  have hvisit : FindScreenshots.visit K parse keyLt fuel album_files full_path
      = some (album_files.set keyLt (entry.file_id.withUniqueId r) full_path) := by
    simp [FindScreenshots.visit, hany AlbumEntry.zero, Result.IsError, hloop]
  refine ⟨hzero, r, ?_, hloop, hvisit, ?_, ?_, hfind, hother⟩
  · rcases hcase with ⟨_, h2, _, _⟩ | ⟨h1, _⟩
    · exact h2
    · omega
  · intro j hj
    rcases hcase with ⟨_, _, _, h4⟩ | ⟨h1, _⟩
    · exact h4 j (Nat.zero_le _) hj
    · omega
  · rcases hcase with ⟨_, _, h3, _⟩ | ⟨h1, h2⟩
    · refine Or.inl ⟨h3, ?_⟩
      rw [hlen, h3]
      simp
    · refine Or.inr ⟨h1, fun j hj => h2 j (Nat.zero_le _) hj, ?_⟩
      have hc := h2 r (Nat.zero_le _) (by omega)
      rw [hlen, hc]
      simp

theorem FindScreenshots_unique_id_witness :
    (AlbumManager.GetAlbumEntry exampleConstants exampleParse AlbumEntry.zero "new.png"
        = (Result.ResultSuccess, ⟨1, exampleFileId 5 1⟩) ∧
      2 ^ exampleConstants.unique_id_bits ≤ 4) ∧
    (exampleFileId 5 1).date.unique_id = 0 ∧
    ∃ u, u < 2 ^ exampleConstants.unique_id_bits ∧
      FindScreenshots.uniqueLoop exampleConstants (exampleTaken 4) 4 (exampleFileId 5 1)
        = some ((exampleFileId 5 1).withUniqueId u) ∧
      FindScreenshots.visit exampleConstants exampleParse exampleKeyLt 4 (exampleTaken 4)
          "new.png"
        = some ((exampleTaken 4).set exampleKeyLt ((exampleFileId 5 1).withUniqueId u)
            "new.png") ∧
      (∀ j, j < u → (exampleTaken 4).contains ((exampleFileId 5 1).withUniqueId j) = true) ∧
      (((exampleTaken 4).contains ((exampleFileId 5 1).withUniqueId u) = false ∧
          ((exampleTaken 4).set exampleKeyLt ((exampleFileId 5 1).withUniqueId u)
            "new.png").length = (exampleTaken 4).length + 1) ∨
        (u = 0 ∧
          (∀ j, j < 2 ^ exampleConstants.unique_id_bits →
            (exampleTaken 4).contains ((exampleFileId 5 1).withUniqueId j) = true) ∧
          ((exampleTaken 4).set exampleKeyLt ((exampleFileId 5 1).withUniqueId u)
            "new.png").length = (exampleTaken 4).length)) ∧
      ((exampleTaken 4).set exampleKeyLt ((exampleFileId 5 1).withUniqueId u) "new.png").find
          ((exampleFileId 5 1).withUniqueId u) = some "new.png" ∧
      (∀ other, other ≠ (exampleFileId 5 1).withUniqueId u →
        ((exampleTaken 4).set exampleKeyLt ((exampleFileId 5 1).withUniqueId u)
            "new.png").find other
          = (exampleTaken 4).find other) :=
  ⟨⟨by rfl, by decide⟩,
    FindScreenshots_unique_id exampleConstants exampleParse exampleKeyLt (exampleTaken 4)
      "new.png" AlbumEntry.zero ⟨1, exampleFileId 5 1⟩ 4 (by rfl) (by decide)⟩

theorem LoadAlbumScreenShot_buffer_size_witness :
    (exampleConstants.STBI_rgb_alpha = 4 ∧ (exampleFileId 5 1).storage ≤ exampleConstants.Sd ∧
      exampleManager.is_mounted = true ∧
      exampleManager.GetFile "" (exampleFileId 5 1) = (Result.ResultSuccess, "b.png")) ∧
    (∃ out, exampleManager.LoadAlbumScreenShotImage exampleConstants exampleLoad ⟨0, 0⟩ [1, 2, 3]
        (exampleFileId 5 1) ScreenShotDecoderFlag.Other = some out ∧
      out.out_image_output = ⟨1280, 720⟩ ∧
      out.exit ≠ none ∧ out.exit ≠ some LoadImageExit.SizeMismatch ∧
      out.out_image.length = 3686400) ∧
    (∃ out, exampleManager.LoadAlbumScreenShotThumbnail exampleConstants exampleLoad ⟨0, 0⟩
        [1, 2, 3] (exampleFileId 5 1) ScreenShotDecoderFlag.Other = some out ∧
      out.out_image_output = ⟨320, 180⟩ ∧
      out.exit ≠ none ∧ out.exit ≠ some LoadImageExit.SizeMismatch ∧
      out.out_image.length = 230400) := by
  have h := LoadAlbumScreenShot_buffer_size exampleConstants exampleLoad exampleManager ⟨0, 0⟩
    [1, 2, 3] (exampleFileId 5 1) ScreenShotDecoderFlag.Other "b.png" rfl (by decide) rfl
    (by rfl)
  refine ⟨⟨rfl, by decide, rfl, by rfl⟩, ?_, ?_⟩
  · obtain ⟨out, h1, h2, _, _, h5, h6, h7⟩ := h.1
    exact ⟨out, h1, h2, h5, h6, h7⟩
  · obtain ⟨out, h1, h2, _, _, h5, h6, h7⟩ := h.2.1
    exact ⟨out, h1, h2, h5, h6, h7⟩

end Service.Capture
